import Mathlib

/-!
Shallow embedding of the `monopoly-ai` game engine (`src/game/globals.rs`,
`src/game/state_diff.rs`, `src/game/mod.rs`) and proofs about the claims of
the specification.

Modelling conventions:
* `f64` probabilities are modelled as exact rationals (`ℚ`); the spec's 1e-9
  tolerance is subsumed by exact equality.
* Rust `HashMap<u8, PropertyOwnership>` is modelled as an association list
  `List (Nat × PropertyOwnership)`; iteration order of the Rust `HashMap` is
  unspecified, the model fixes it to the list order.
* Partial operations (vector indexing) use `getD` defaults; the theorems carry
  the well-formedness hypotheses that make the defaults irrelevant.
* Spots where the Rust code aborts the process are modelled with `Option`
  (`none` = abort) or, where noted, a neutral value that is unreachable from
  the embedded call sites.
-/

namespace MonopolyAI

/-! ### globals.rs -/

/-- A possible outcome of rolling the dice (`globals.rs`, `DiceRoll`). -/
structure DiceRoll where
  probability : ℚ
  sum : Nat
  is_double : Bool
deriving DecidableEq, Inhabited

/-- The color sets of properties (`globals.rs`, `Color`). -/
inductive Color
| Brown | LightBlue | Pink | Orange | Red | Yellow | Green | Blue
deriving DecidableEq, Inhabited

/-- Chance cards (`globals.rs`, `ChanceCard`). -/
inductive ChanceCard
| RentTo1 | RentTo5 | SetRentInc | SetRentDec | SideRentInc | SideRentDec
| RentSpike | Bonus | SwapProperty | OpponentToJail | GoToAnyProperty
| PropertyTax | Level1Rent | AllToParking
deriving DecidableEq, Inhabited, Fintype

/-- The fourteen chance cards in the order of the deck-composition table in
`ChanceCard::unseen_counts`. -/
def ChanceCard.all : List ChanceCard :=
  [.RentTo1, .RentTo5, .SetRentInc, .SetRentDec, .SideRentInc, .SideRentDec,
   .RentSpike, .Bonus, .SwapProperty, .OpponentToJail, .GoToAnyProperty,
   .PropertyTax, .Level1Rent, .AllToParking]

/-- Number of copies of each card in the full deck (the literal counts of
`ChanceCard::unseen_counts`). -/
def ChanceCard.base_count : ChanceCard → Nat
  | .RentTo1 => 3
  | .RentTo5 => 1
  | .SetRentInc => 3
  | .SetRentDec => 1
  | .SideRentInc => 1
  | .SideRentDec => 1
  | .RentSpike => 2
  | .Bonus => 2
  | .SwapProperty => 2
  | .OpponentToJail => 1
  | .GoToAnyProperty => 1
  | .PropertyTax => 1
  | .Level1Rent => 1
  | .AllToParking => 1

/-- `ChanceCard::unseen_counts` for a single card: the deck count minus the
number of times the card was seen (the Rust code decrements a `u8` and would
abort on underflow; `Nat` subtraction truncates instead, the theorems assume
the seen list is a sub-multiset of the deck). -/
def ChanceCard.unseen_count (seen : List ChanceCard) (c : ChanceCard) : Nat :=
  ChanceCard.base_count c - seen.count c

/-- `ChanceCard::is_choiceless`. -/
def ChanceCard.is_choiceless : ChanceCard → Bool
  | .PropertyTax | .Level1Rent | .AllToParking => true
  | _ => false

/-- A property tile on the board (`globals.rs`, `Property`). -/
structure Property where
  color : Color
  price : Int
  rents : List Int
deriving DecidableEq, Inhabited

/-- A player playing the game (`globals.rs`, `Player`). -/
structure Player where
  in_jail : Bool
  position : Nat
  balance : Int
  doubles_rolled : Nat
deriving DecidableEq, Inhabited

/-- `Player::new`. -/
def Player.new : Player :=
  { in_jail := false, position := 0, balance := 1500, doubles_rolled := 0 }

/-- Board constant: the position of 'Jail'. -/
def JAIL_POSITION : Nat := 9

/-- Board constant: the position of 'Free parking'. -/
def FREE_PARKING_POSITION : Nat := 18

/-- Board constant: the position of the 'Go to jail' tile. -/
def GO_TO_JAIL_POSITION : Nat := 27

/-- The total number of chance cards. -/
def TOTAL_CHANCE_CARDS : Nat := 21

/-- Number of tries to get out of jail before having to pay. -/
def JAIL_TRIES : Nat := 3

/-- `Player::move_by`. -/
def Player.move_by (p : Player) (distance : Nat) : Player :=
  let new_pos := (p.position + distance) % 36
  let p1 := if p.in_jail && distance != 0 then { p with in_jail := false } else p
  let p2 := if new_pos < p1.position then { p1 with balance := p1.balance + 200 } else p1
  { p2 with position := new_pos }

/-- `Player::send_to_jail`. -/
def Player.send_to_jail (p : Player) : Player :=
  { p with position := JAIL_POSITION, in_jail := true, doubles_rolled := 0 }

/-- Positions of the chance card tiles. -/
def CC_POSITIONS : List Nat := [2, 4, 11, 20, 29, 32]

/-- Positions of the location tiles. -/
def LOC_POSITIONS : List Nat := [7, 16, 25, 34]

/-- Positions of the property tiles. -/
def PROP_POSITIONS : List Nat :=
  [1, 3, 5, 6, 8, 10, 12, 13, 14, 15, 17, 19, 21, 22, 23, 24, 26, 28, 30, 31, 33, 35]

/-- Positions of the corners of the game board. -/
def CORNER_POSITIONS : List Nat := [0, 9, 18, 27]

/-- All the properties on the game board (`globals.rs`, `PROPERTIES`). -/
def PROPERTIES : Nat → Option Property
  | 1 => some ⟨.Brown, 60, [70, 130, 220, 370, 750]⟩
  | 3 => some ⟨.Brown, 60, [70, 130, 220, 370, 750]⟩
  | 5 => some ⟨.LightBlue, 100, [80, 140, 240, 410, 800]⟩
  | 6 => some ⟨.LightBlue, 100, [80, 140, 240, 410, 800]⟩
  | 8 => some ⟨.LightBlue, 120, [100, 160, 260, 440, 860]⟩
  | 10 => some ⟨.Pink, 140, [110, 180, 290, 460, 900]⟩
  | 12 => some ⟨.Pink, 140, [110, 180, 290, 460, 900]⟩
  | 13 => some ⟨.Pink, 160, [130, 200, 310, 490, 980]⟩
  | 14 => some ⟨.Orange, 180, [140, 210, 330, 520, 1000]⟩
  | 15 => some ⟨.Orange, 180, [140, 210, 330, 520, 1000]⟩
  | 17 => some ⟨.Orange, 200, [160, 230, 350, 550, 1100]⟩
  | 19 => some ⟨.Red, 220, [170, 250, 380, 580, 1160]⟩
  | 21 => some ⟨.Red, 220, [170, 250, 380, 580, 1160]⟩
  | 22 => some ⟨.Red, 240, [190, 270, 400, 610, 1200]⟩
  | 23 => some ⟨.Yellow, 260, [200, 280, 420, 640, 1300]⟩
  | 24 => some ⟨.Yellow, 260, [200, 280, 420, 640, 1300]⟩
  | 26 => some ⟨.Yellow, 280, [220, 300, 440, 670, 1340]⟩
  | 28 => some ⟨.Green, 300, [230, 320, 460, 700, 1400]⟩
  | 30 => some ⟨.Green, 300, [230, 320, 460, 700, 1400]⟩
  | 31 => some ⟨.Green, 320, [250, 340, 480, 730, 1440]⟩
  | 33 => some ⟨.Blue, 350, [270, 360, 510, 740, 1500]⟩
  | 35 => some ⟨.Blue, 400, [300, 400, 560, 810, 1600]⟩
  | _ => none

/-- Positions of the properties, sorted by their color set (`PROPS_BY_COLOR`). -/
def PROPS_BY_COLOR : List (Color × List Nat) :=
  [(.Brown, [1, 3]), (.LightBlue, [5, 6, 8]), (.Pink, [10, 12, 13]),
   (.Orange, [14, 15, 17]), (.Red, [19, 21, 22]), (.Yellow, [23, 24, 26]),
   (.Green, [28, 30, 31]), (.Blue, [33, 35])]

/-- Positions of the properties, sorted by board side (`PROPS_BY_SIDE`). -/
def PROPS_BY_SIDE : List (List Nat) :=
  [[1, 3, 5, 6, 8], [10, 12, 13, 14, 15, 17], [19, 21, 22, 23, 24, 26],
   [28, 30, 31, 33, 35]]

/-- Neighbours of properties (`PROPERTY_NEIGHBOURS`). -/
def PROPERTY_NEIGHBOURS : Nat → List Nat
  | 1 => [35, 3]
  | 3 => [1, 5]
  | 5 => [3, 6]
  | 6 => [5, 8]
  | 8 => [6, 10]
  | 10 => [8, 12]
  | 12 => [10, 13]
  | 13 => [12, 14]
  | 14 => [13, 15]
  | 15 => [14, 17]
  | 17 => [15, 19]
  | 19 => [17, 21]
  | 21 => [19, 22]
  | 22 => [21, 23]
  | 23 => [22, 24]
  | 24 => [23, 26]
  | 26 => [24, 28]
  | 28 => [26, 30]
  | 30 => [28, 31]
  | 31 => [30, 33]
  | 33 => [31, 35]
  | 35 => [33, 1]
  | _ => []

/-- One step of the `SIGNIFICANT_ROLLS` construction: record the roll of the
two dice `d1` and `d2`, merging the probability into an existing entry with
the same sum when the roll is not a double. -/
def add_roll (sig_rolls : List DiceRoll) (d1 d2 : Nat) : List DiceRoll :=
  let probability : ℚ := 1 / 36
  let sum := d1 + d2
  if d1 = d2 then
    sig_rolls ++ [{ probability := probability, sum := sum, is_double := true }]
  else
    match sig_rolls.findIdx? (fun r => r.sum == sum) with
    | some i =>
        sig_rolls.set i
          (let r := sig_rolls.getD i default
           { r with probability := r.probability + probability })
    | none => sig_rolls ++ [{ probability := probability, sum := sum, is_double := false }]

/-- All significant dice rolls (`globals.rs`, `SIGNIFICANT_ROLLS`): doubles are
kept separate, non-doubles with equal sums are merged. -/
def significant_rolls : List DiceRoll :=
  (List.range 6).foldl
    (fun acc d1 => (List.range 6).foldl (fun acc2 d2 => add_roll acc2 (d1 + 1) (d2 + 1)) acc)
    []

/-- The probability of not rolling a double in one try (`SINGLE_PROBABILITY`). -/
def single_probability : ℚ :=
  ((significant_rolls.filter (fun r => !r.is_double)).map (fun r => r.probability)).sum

/-- The inner `while` loop of `get_combinations`: while `i > 0` and
`curr[i] ≥ n - k + 1 + i`, decrement `i` and increment `curr[i]`. -/
def comb_while (n k : Nat) : List Nat → Nat → List Nat × Nat
  | curr, 0 => (curr, 0)
  | curr, i + 1 =>
    if curr.getD (i + 1) 0 ≥ n - k + 1 + (i + 1) then
      comb_while n k (curr.set i (curr.getD i 0 + 1)) i
    else (curr, i + 1)

/-- The fix-up step of `get_combinations`: for `j` in `i+1 .. k-1` set
`curr[j] = curr[j-1] + 1`. -/
def comb_fixup (curr : List Nat) (i k : Nat) : List Nat :=
  (List.range (k - (i + 1))).foldl
    (fun c jj =>
      let j := i + 1 + jj
      c.set j (c.getD (j - 1) 0 + 1))
    curr

/-- The main loop of `get_combinations`, with fuel (the Rust loop terminates
after at most `choose n k` iterations; the fuel is a safe upper bound). -/
def comb_loop (n k : Nat) : Nat → List Nat → List (List Nat) → List (List Nat)
  | 0, _, acc => acc
  | fuel + 1, curr, acc =>
    let curr1 := curr.set (k - 1) (curr.getD (k - 1) 0 + 1)
    let cw := comb_while n k curr1 (k - 1)
    if cw.1.getD 0 0 > n - k then acc
    else
      let curr2 := comb_fixup cw.1 cw.2 k
      comb_loop n k fuel curr2 (acc ++ [curr2])

/-- `get_combinations` (`globals.rs`): all `k`-long combinations of
`{0, …, n-1}`, in the order the imperative algorithm produces them. -/
def get_combinations (n k : Nat) : List (List Nat) :=
  let curr := List.range k
  comb_loop n k (2 ^ n + 1) curr [curr]

/-! ### state_diff.rs -/

/-- The type of branch that led to a game state (`BranchType`). -/
inductive BranchType
| Chance (p : ℚ)
| Choice
| Undefined
deriving DecidableEq, Inhabited

/-- Ownership information of a property (`PropertyOwnership`). -/
structure PropertyOwnership where
  owner : Nat
  rent_level : Nat
deriving DecidableEq, Inhabited

/-- `PropertyOwnership::raise_rent`: raise the rent level by one if possible,
also returning whether this had any effect. -/
def PropertyOwnership.raise_rent (p : PropertyOwnership) : PropertyOwnership × Bool :=
  if p.rent_level < 5 then ({ p with rent_level := p.rent_level + 1 }, true) else (p, false)

/-- `PropertyOwnership::lower_rent`. -/
def PropertyOwnership.lower_rent (p : PropertyOwnership) : PropertyOwnership × Bool :=
  if p.rent_level > 1 then ({ p with rent_level := p.rent_level - 1 }, true) else (p, false)

/-- `PropertyOwnership::change_rent`. -/
def PropertyOwnership.change_rent (p : PropertyOwnership) (increase : Bool) :
    PropertyOwnership × Bool :=
  if increase then p.raise_rent else p.lower_rent

/-- The type of move to be made after a state (`MoveType`). -/
inductive MoveType
| Undefined
| Roll
| Property
| SellProperty
| Auction
| Location
| ChanceCard
| ChoicefulCC (cc : ChanceCard)
deriving DecidableEq, Inhabited

/-- `MoveType::when_landed_on`. -/
def MoveType.when_landed_on (tile : Nat) : MoveType :=
  if tile ∈ PROP_POSITIONS then .Property
  else if tile ∈ CC_POSITIONS then .ChanceCard
  else if tile ∈ LOC_POSITIONS then .Location
  else .Roll

/-- `MoveType::is_roll`. -/
def MoveType.is_roll : MoveType → Bool
  | .Roll => true
  | _ => false

/-- A field of a game state (`FieldDiff`). -/
inductive FieldDiff
| Players (x : List Player)
| CurrentPlayer (x : Nat)
| OwnedProperties (x : List (Nat × PropertyOwnership))
| SeenCCs (x : List ChanceCard)
| SeenCCsHead (x : Nat)
| Level1Rent (x : Nat)
| JailRounds (x : List Nat)
deriving DecidableEq, Inhabited

/-- Identifiers of the tracked diff fields (`globals.rs`, `DiffID`). -/
inductive DiffID
| Level1Rent | SeenCcsHead | SeenCcs | OwnedProperties | CurrentPlayer | Players | JailRounds
deriving DecidableEq, Inhabited, Fintype

/-- The `u8` discriminant of a `DiffID` (`Level1Rent = 1`, …, `JailRounds = 7`). -/
def DiffID.disc : DiffID → Nat
  | .Level1Rent => 1
  | .SeenCcsHead => 2
  | .SeenCcs => 3
  | .OwnedProperties => 4
  | .CurrentPlayer => 5
  | .Players => 6
  | .JailRounds => 7

/-- `DiffID::all`. -/
def DiffID.all : List DiffID :=
  [.Level1Rent, .SeenCcsHead, .SeenCcs, .OwnedProperties, .CurrentPlayer, .Players, .JailRounds]

/-- A message denoting what changed in a `StateDiff` (`DiffMessage`). -/
inductive DiffMessage
| None
| Roll (p : Nat)
| RollDoubles (p : Nat)
| RollToJail
| StayInJail
| LandOwnProp
| LandOppProp
| BuyProp
| AuctionProp
| AfterAuction (i : Nat) (m : Int)
| Location (l : Nat)
| NoLocation
| ChanceCard (cc : ChanceCard)
deriving DecidableEq, Inhabited

/-- A game-state node (`state_diff.rs`, `StateDiff`): a sparse set of
overridden fields (`present_diffs` bit mask and the `diffs` vector ordered by
decreasing discriminant) plus the per-node tree data. -/
structure StateDiff where
  present_diffs : Nat
  diffs : List FieldDiff
  parent : Nat
  children : List Nat
  branch_type : BranchType
  next_move : MoveType
  message : DiffMessage
deriving DecidableEq, Inhabited

/-- `StateDiff::new_with_parent`. -/
def StateDiff.new_with_parent (parent : Nat) : StateDiff :=
  { present_diffs := 0, diffs := [], parent := parent, children := [],
    branch_type := .Undefined, next_move := .Undefined, message := .None }

/-- `StateDiff::new_root`. -/
def StateDiff.new_root (player_count : Nat) : StateDiff :=
  { diffs :=
      [.JailRounds (List.replicate player_count 0),
       .Players (List.replicate player_count Player.new),
       .CurrentPlayer 0, .OwnedProperties [], .SeenCCs [], .SeenCCsHead 0, .Level1Rent 0],
    present_diffs := 0b11111110,
    parent := 0, children := [], branch_type := .Undefined, next_move := .Roll,
    message := .None }

/-- `StateDiff::diff_exists`. -/
def StateDiff.diff_exists (s : StateDiff) (diff_id : DiffID) : Bool :=
  (s.present_diffs >>> diff_id.disc) &&& 1 == 1

/-- `StateDiff::get_supposed_diff_index`: the number of present diffs with a
higher discriminant. -/
def StateDiff.get_supposed_diff_index (s : StateDiff) (diff_id : DiffID) : Nat :=
  let relevant_bits := s.present_diffs >>> diff_id.disc
  (relevant_bits >>> 1 &&& 1) + (relevant_bits >>> 2 &&& 1) + (relevant_bits >>> 3 &&& 1) +
    (relevant_bits >>> 4 &&& 1) + (relevant_bits >>> 5 &&& 1) + (relevant_bits >>> 6 &&& 1) +
    (relevant_bits >>> 7 &&& 1)

/-- `StateDiff::get_diff_index`. -/
def StateDiff.get_diff_index (s : StateDiff) (diff_id : DiffID) : Option Nat :=
  if s.diff_exists diff_id then some (s.get_supposed_diff_index diff_id) else none

/-- `StateDiff::set_diff`: insert or update a diff field. -/
def StateDiff.set_diff (s : StateDiff) (diff_id : DiffID) (diff : FieldDiff) : StateDiff :=
  let diff_index := s.get_supposed_diff_index diff_id
  if s.diff_exists diff_id then
    { s with diffs := s.diffs.set diff_index diff }
  else
    { s with diffs := s.diffs.insertIdx diff_index diff,
             present_diffs := s.present_diffs ||| (1 <<< diff_id.disc) }

/-- `StateDiff::set_players`. -/
def StateDiff.set_players (s : StateDiff) (players : List Player) : StateDiff :=
  s.set_diff .Players (.Players players)

/-- `StateDiff::set_current_pindex`. -/
def StateDiff.set_current_pindex (s : StateDiff) (curr_player : Nat) : StateDiff :=
  s.set_diff .CurrentPlayer (.CurrentPlayer curr_player)

/-- `StateDiff::set_owned_properties`. -/
def StateDiff.set_owned_properties (s : StateDiff)
    (owned_properties : List (Nat × PropertyOwnership)) : StateDiff :=
  s.set_diff .OwnedProperties (.OwnedProperties owned_properties)

/-- `StateDiff::set_seen_ccs`. -/
def StateDiff.set_seen_ccs (s : StateDiff) (seen_ccs : List ChanceCard) : StateDiff :=
  s.set_diff .SeenCcs (.SeenCCs seen_ccs)

/-- `StateDiff::set_top_cc`. -/
def StateDiff.set_top_cc (s : StateDiff) (seen_ccs_head : Nat) : StateDiff :=
  s.set_diff .SeenCcsHead (.SeenCCsHead seen_ccs_head)

/-- `StateDiff::set_level_1_rent`. -/
def StateDiff.set_level_1_rent (s : StateDiff) (rent : Nat) : StateDiff :=
  s.set_diff .Level1Rent (.Level1Rent rent)

/-- `StateDiff::set_jail_rounds`. -/
def StateDiff.set_jail_rounds (s : StateDiff) (jail_rounds : List Nat) : StateDiff :=
  s.set_diff .JailRounds (.JailRounds jail_rounds)

/-- Specification-side reader: the locally stored diff for a field, if any. -/
def StateDiff.read_diff (s : StateDiff) (diff_id : DiffID) : Option FieldDiff :=
  match s.get_diff_index diff_id with
  | some i => s.diffs[i]?
  | none => none

/-- Specification-side reader: the locally stored players diff. -/
def StateDiff.read_players (s : StateDiff) : Option (List Player) :=
  match s.read_diff .Players with
  | some (.Players x) => some x
  | _ => none

/-- Specification-side reader: the locally stored current-player diff. -/
def StateDiff.read_current_pindex (s : StateDiff) : Option Nat :=
  match s.read_diff .CurrentPlayer with
  | some (.CurrentPlayer x) => some x
  | _ => none

/-- Specification-side reader: the locally stored owned-properties diff. -/
def StateDiff.read_owned_properties (s : StateDiff) :
    Option (List (Nat × PropertyOwnership)) :=
  match s.read_diff .OwnedProperties with
  | some (.OwnedProperties x) => some x
  | _ => none

/-- Specification-side reader: the locally stored jail-rounds diff. -/
def StateDiff.read_jail_rounds (s : StateDiff) : Option (List Nat) :=
  match s.read_diff .JailRounds with
  | some (.JailRounds x) => some x
  | _ => none

/-! ### mod.rs — resolved game view and helpers

The expansion methods of `Game` read the parent state's fields through the
diff chain (`diff_players`, `diff_current_pindex`, …). The model passes the
resolved values of those seven fields, plus the node's pending move, as one
record. -/

/-- The resolved view of a game-tree node: the seven tracked fields as the
diff-chain getters of `Game` would return them, plus the node's `next_move`. -/
structure GameState where
  players : List Player
  current_pindex : Nat
  owned_properties : List (Nat × PropertyOwnership)
  seen_ccs : List ChanceCard
  top_cc : Nat
  level_1_rent : Nat
  jail_rounds : List Nat
  next_move : MoveType
deriving DecidableEq, Inhabited

/-- `Game::get_current_player`. -/
def GameState.get_current_player (s : GameState) : Player :=
  s.players.getD s.current_pindex Player.new

/-- `Game::get_next_pindex`. -/
def GameState.get_next_pindex (s : GameState) : Nat :=
  (s.current_pindex + 1) % s.players.length

/-- `Game::get_next_top_cc`. -/
def GameState.get_next_top_cc (s : GameState) : Nat :=
  (s.top_cc + 1) % TOTAL_CHANCE_CARDS

/-- `Game::get_current_props`: positions of the properties owned by the
current player (a `HashSet` in Rust; a list in iteration order here). -/
def GameState.get_current_props (s : GameState) : List Nat :=
  s.owned_properties.filterMap
    (fun kv => if kv.2.owner = s.current_pindex then some kv.1 else none)

/-- Map update for the owned-properties association list: apply `f` to the
entry at key `k` (models `HashMap::get_mut`). -/
def props_update (m : List (Nat × PropertyOwnership)) (k : Nat)
    (f : PropertyOwnership → PropertyOwnership) : List (Nat × PropertyOwnership) :=
  m.map (fun kv => if kv.1 = k then (k, f kv.2) else kv)

/-- Map insertion (models `HashMap::insert`). -/
def props_insert (m : List (Nat × PropertyOwnership)) (k : Nat) (v : PropertyOwnership) :
    List (Nat × PropertyOwnership) :=
  if (m.lookup k).isSome then props_update m k (fun _ => v) else m ++ [(k, v)]

/-- Map removal (models `HashMap::remove`). -/
def props_remove (m : List (Nat × PropertyOwnership)) (k : Nat) :
    List (Nat × PropertyOwnership) :=
  m.filter (fun kv => kv.1 != k)

/-- Raise the rent of the property at key `k`, also reporting whether anything
changed (models `props.get_mut(&k).unwrap().raise_rent()`; an absent key
leaves the map unchanged — the Rust code would abort there). -/
def props_raise_rent (m : List (Nat × PropertyOwnership)) (k : Nat) :
    List (Nat × PropertyOwnership) × Bool :=
  match m.lookup k with
  | some p => let r := p.raise_rent; (props_update m k (fun _ => r.1), r.2)
  | none => (m, false)

/-- Lower the rent of the property at key `k` (see `props_raise_rent`). -/
def props_lower_rent (m : List (Nat × PropertyOwnership)) (k : Nat) :
    List (Nat × PropertyOwnership) × Bool :=
  match m.lookup k with
  | some p => let r := p.lower_rent; (props_update m k (fun _ => r.1), r.2)
  | none => (m, false)

/-- Change the rent of the property at key `k` (see `props_raise_rent`). -/
def props_change_rent (m : List (Nat × PropertyOwnership)) (k : Nat) (increase : Bool) :
    List (Nat × PropertyOwnership) × Bool :=
  match m.lookup k with
  | some p => let r := p.change_rent increase; (props_update m k (fun _ => r.1), r.2)
  | none => (m, false)

/-- `Game::new_state_from_cc`: boilerplate child for chance cards. -/
def new_state_from_cc (s : GameState) (card : ChanceCard) (handle : Nat) : StateDiff :=
  let state := { StateDiff.new_with_parent handle with next_move := MoveType.Roll }
  let state :=
    if s.get_current_player.doubles_rolled = 0 then
      state.set_current_pindex s.get_next_pindex
    else state
  if s.seen_ccs.length = TOTAL_CHANCE_CARDS then
    state.set_top_cc s.get_next_top_cc
  else
    state.set_seen_ccs (s.seen_ccs ++ [card])

/-- `Game::advance_move`: set `next_move` to `Roll` and pass the turn on if
the current player didn't roll doubles. -/
def advance_move (s : GameState) (state : StateDiff) : StateDiff :=
  let state := { state with next_move := MoveType.Roll }
  if s.get_current_player.doubles_rolled = 0 then
    state.set_current_pindex s.get_next_pindex
  else state

/-- `Game::get_auction_winner_chances`: players with balance ≥ 20, weighted by
balance. -/
def get_auction_winner_chances (s : GameState) : List (Nat × ℚ) :=
  let possible_winners := s.players.enum.filter (fun ip => decide (ip.2.balance ≥ 20))
  let total_balance : ℚ := ((possible_winners.map (fun ip => ip.2.balance)).sum : Int)
  possible_winners.map (fun ip => (ip.1, (ip.2.balance : ℚ) / total_balance))

/-- The accumulator step of the `fold` in `Game::get_winning_bid_chances`:
push the next (bid, chance) pair, merging it into the last entry when the bid
is equal. -/
def bid_collapse_step (acc : List (Int × ℚ)) (pc : Int × ℚ) : List (Int × ℚ) :=
  match acc.getLast? with
  | some last =>
    if pc.1 = last.1 then acc.dropLast ++ [(last.1, last.2 + pc.2)]
    else acc ++ [pc]
  | none => acc ++ [pc]

/-- `Game::get_winning_bid_chances`: the five bell-curve bid quantiles for a
winner, with adjacent equal bids collapsed. The Rust function aborts when the
winner's balance is below 20; all call sites filter on balance ≥ 20, the model
returns `[]` on that unreachable branch. -/
def get_winning_bid_chances (s : GameState) (winner : Nat) : List (Int × ℚ) :=
  let balance := (s.players.getD winner Player.new).balance
  let balance_at_pos : ℚ → Int := fun pos =>
    round (((balance : ℚ) - 20) * pos / 20) * 20 + 20
  if balance < 20 then []
  else
    (([((1 : ℚ) / 6, (0.0675 : ℚ)), (2 / 6, 0.2410), (3 / 6, 0.3830), (4 / 6, 0.2410),
       (5 / 6, 0.0675)].map (fun pc => (balance_at_pos pc.1, pc.2))).foldl
      bid_collapse_step [])

/-- `Game::is_terminal`: some player is bankrupt and the pending move is not
`SellProperty`. -/
def is_terminal (s : GameState) : Bool :=
  let bankrupt := s.players.any (fun p => decide (p.balance < 0))
  bankrupt && !(match s.next_move with
    | MoveType.SellProperty => true
    | _ => false)

/-! ### mod.rs — roll expansion -/

/-- The in-jail loop body of `gen_roll_children`: the child for one
significant roll of a jailed player. -/
def jail_roll_child (s : GameState) (handle : Nat) (jail_rounds : Nat)
    (roll : DiceRoll) : StateDiff :=
  let i := s.current_pindex
  let players := s.players
  let diff := { StateDiff.new_with_parent handle with
                branch_type := BranchType.Chance roll.probability,
                message := DiffMessage.Roll ((players.getD i Player.new).position),
                next_move := MoveType.when_landed_on ((players.getD i Player.new).position) }
  let players :=
    if !roll.is_double && jail_rounds == 0 then
      players.set i
        (let p := players.getD i Player.new; { p with balance := p.balance - 100 })
    else players
  let players := players.set i ((players.getD i Player.new).move_by roll.sum)
  let diff := diff.set_players players
  if diff.next_move.is_roll then diff.set_current_pindex s.get_next_pindex else diff

/-- The stay-in-jail child of `gen_roll_children`. -/
def stay_in_jail_child (s : GameState) (handle : Nat) : StateDiff :=
  let st := { StateDiff.new_with_parent handle with
              branch_type := BranchType.Chance single_probability,
              next_move := MoveType.Roll }
  st.set_current_pindex s.get_next_pindex

/-- The common tail of the not-in-jail loop body of `gen_roll_children`:
compute `next_move` from the updated position, pass the turn on when
appropriate, and store the updated players. -/
def normal_roll_finish (s : GameState) (state : StateDiff) (players : List Player) :
    StateDiff :=
  let p := players.getD s.current_pindex Player.new
  let state := { state with next_move := MoveType.when_landed_on p.position }
  let state :=
    if state.next_move.is_roll && p.doubles_rolled == 0 then
      state.set_current_pindex s.get_next_pindex
    else state
  state.set_players players

/-- The not-in-jail loop body of `gen_roll_children`: the child for one
significant roll of a free player. -/
def normal_roll_child (s : GameState) (handle : Nat) (roll : DiceRoll) : StateDiff :=
  let i := s.current_pindex
  let state := { StateDiff.new_with_parent handle with
                 branch_type := BranchType.Chance roll.probability }
  let players := s.players.set i ((s.players.getD i Player.new).move_by roll.sum)
  let p := players.getD i Player.new
  if p.position = GO_TO_JAIL_POSITION then
    let players := players.set i p.send_to_jail
    let jail_rounds := s.jail_rounds.set i JAIL_TRIES
    let state := state.set_jail_rounds jail_rounds
    normal_roll_finish s { state with message := DiffMessage.RollToJail } players
  else if roll.is_double then
    let p2 := { p with doubles_rolled := p.doubles_rolled + 1 }
    if p2.doubles_rolled = 3 then
      normal_roll_finish s { state with message := DiffMessage.RollToJail }
        (players.set i p2.send_to_jail)
    else
      normal_roll_finish s { state with message := DiffMessage.RollDoubles p2.position }
        (players.set i p2)
  else
    normal_roll_finish s { state with message := DiffMessage.Roll p.position }
      (players.set i { p with doubles_rolled := 0 })

/-- `Game::gen_roll_children`. -/
def gen_roll_children (s : GameState) (handle : Nat) : List StateDiff :=
  let i := s.current_pindex
  if (s.players.getD i Player.new).in_jail then
    let jail_rounds := s.jail_rounds.getD i 0
    let children :=
      (significant_rolls.filter (fun roll => roll.is_double || jail_rounds == 0)).map
        (jail_roll_child s handle jail_rounds)
    if jail_rounds > 0 then children ++ [stay_in_jail_child s handle] else children
  else
    significant_rolls.map (normal_roll_child s handle)

/-! ### mod.rs — chance-card expansion -/

/-- `Game::gen_cc_property_tax`. -/
def gen_cc_property_tax (s : GameState) (probability : ℚ) (handle : Nat) : StateDiff :=
  let i := s.current_pindex
  let tax : Int :=
    s.owned_properties.foldl (fun t kv => if kv.2.owner = i then t + 50 else t) 0
  let updated_players :=
    s.players.set i
      (let p := s.players.getD i Player.new; { p with balance := p.balance - tax })
  let state := { new_state_from_cc s ChanceCard.PropertyTax handle with
                 branch_type := BranchType.Chance probability }
  state.set_players updated_players

/-- `Game::gen_cc_level_1_rent`. -/
def gen_cc_level_1_rent (s : GameState) (probability : ℚ) (handle : Nat) : StateDiff :=
  let state := { new_state_from_cc s ChanceCard.Level1Rent handle with
                 branch_type := BranchType.Chance probability }
  state.set_level_1_rent (s.players.length * 2)

/-- `Game::gen_cc_all_to_parking`. -/
def gen_cc_all_to_parking (s : GameState) (probability : ℚ) (handle : Nat) : StateDiff :=
  let updated_players :=
    s.players.map (fun p =>
      if p.in_jail then p else { p with position := FREE_PARKING_POSITION })
  let state := { new_state_from_cc s ChanceCard.AllToParking handle with
                 branch_type := BranchType.Chance probability }
  state.set_players updated_players

/-- `Game::gen_choiceless_cc_child`; `none` models the abort on a choiceful
card (unreachable: both call sites guard with `is_choiceless`). -/
def gen_choiceless_cc_child (s : GameState) (cc : ChanceCard) (handle : Nat)
    (probability : ℚ) : Option StateDiff :=
  match cc with
  | .PropertyTax => some (gen_cc_property_tax s probability handle)
  | .Level1Rent => some (gen_cc_level_1_rent s probability handle)
  | .AllToParking => some (gen_cc_all_to_parking s probability handle)
  | _ => none

/-- `Game::gen_cc_rent_to_x`. -/
def gen_cc_rent_to_x (s : GameState) (maxi : Bool) (handle : Nat) : List StateDiff :=
  let curr_pindex := s.current_pindex
  let cc := if maxi then ChanceCard.RentTo5 else ChanceCard.RentTo1
  let target_rent := if maxi then 5 else 1
  s.owned_properties.filterMap (fun kv =>
    if (maxi && !(kv.2.owner == curr_pindex)) || kv.2.rent_level == target_rent then none
    else
      let child := { new_state_from_cc s cc handle with branch_type := BranchType.Choice }
      some (child.set_owned_properties
        (props_update s.owned_properties kv.1 (fun p => { p with rent_level := target_rent }))))

/-- `Game::gen_cc_set_rent_change`. -/
def gen_cc_set_rent_change (s : GameState) (increase : Bool) (handle : Nat) :
    List StateDiff :=
  let cc := if increase then ChanceCard.SetRentInc else ChanceCard.SetRentDec
  let my_props := s.get_current_props
  PROPS_BY_COLOR.filterMap (fun cps =>
    if cps.2.all (fun pos => decide (pos ∉ my_props)) then none
    else
      let res := cps.2.foldl
        (fun acc pos =>
          match acc.1.lookup pos with
          | some _ => let r := props_change_rent acc.1 pos increase; (r.1, acc.2 || r.2)
          | none => acc)
        (s.owned_properties, false)
      if res.2 then
        some (({ new_state_from_cc s cc handle with
                 branch_type := BranchType.Choice }).set_owned_properties res.1)
      else none)

/-- `Game::gen_cc_side_rent_change`. -/
def gen_cc_side_rent_change (s : GameState) (increase : Bool) (handle : Nat) :
    List StateDiff :=
  let cc := if increase then ChanceCard.SideRentInc else ChanceCard.SideRentDec
  let my_props := s.get_current_props
  PROPS_BY_SIDE.filterMap (fun positions =>
    if positions.all (fun pos => decide (pos ∉ my_props)) then none
    else
      let res := positions.foldl
        (fun acc pos =>
          match acc.1.lookup pos with
          | some _ => let r := props_change_rent acc.1 pos increase; (r.1, acc.2 || r.2)
          | none => acc)
        (s.owned_properties, false)
      if res.2 then
        some (({ new_state_from_cc s cc handle with
                 branch_type := BranchType.Choice }).set_owned_properties res.1)
      else none)

/-- `Game::gen_cc_rent_spike`. -/
def gen_cc_rent_spike (s : GameState) (handle : Nat) : List StateDiff :=
  let i := s.current_pindex
  s.owned_properties.filterMap (fun kv =>
    if !(kv.2.owner == i) then none
    else
      let r0 := props_raise_rent s.owned_properties kv.1
      let res := (PROPERTY_NEIGHBOURS kv.1).foldl
        (fun acc n_pos =>
          match acc.1.lookup n_pos with
          | some _ => let r := props_lower_rent acc.1 n_pos; (r.1, acc.2 || r.2)
          | none => acc)
        r0
      if res.2 then
        some (({ new_state_from_cc s ChanceCard.RentSpike handle with
                 branch_type := BranchType.Choice }).set_owned_properties res.1)
      else none)

/-- `Game::gen_cc_bonus`. -/
def gen_cc_bonus (s : GameState) (handle : Nat) : List StateDiff :=
  let curr_pindex := s.current_pindex
  (List.range s.players.length).filterMap (fun i =>
    if i = curr_pindex then none
    else
      let players := s.players.set curr_pindex
        (let p := s.players.getD curr_pindex Player.new; { p with balance := p.balance + 200 })
      let players := players.set i
        (let p := players.getD i Player.new; { p with balance := p.balance + 200 })
      some (({ new_state_from_cc s ChanceCard.Bonus handle with
               branch_type := BranchType.Choice }).set_players players))

/-- `Game::gen_cc_swap_property`. -/
def gen_cc_swap_property (s : GameState) (handle : Nat) : List StateDiff :=
  let parent_props := s.owned_properties
  let curr_pindex := s.current_pindex
  parent_props.flatMap (fun my_kv =>
    if !(my_kv.2.owner == curr_pindex) then []
    else
      parent_props.filterMap (fun opp_kv =>
        if opp_kv.2.owner == curr_pindex then none
        else
          let props := props_update parent_props my_kv.1
            (fun p => { p with owner := opp_kv.2.owner })
          let props := props_update props opp_kv.1
            (fun p => { p with owner := my_kv.2.owner })
          some (({ new_state_from_cc s ChanceCard.SwapProperty handle with
                   branch_type := BranchType.Choice }).set_owned_properties props)))

/-- `Game::gen_cc_opponent_to_jail`. -/
def gen_cc_opponent_to_jail (s : GameState) (handle : Nat) : List StateDiff :=
  let curr_pindex := s.current_pindex
  (List.range s.players.length).filterMap (fun i =>
    if i = curr_pindex then none
    else
      let players := s.players.set i ((s.players.getD i Player.new).send_to_jail)
      some (({ new_state_from_cc s ChanceCard.OpponentToJail handle with
               branch_type := BranchType.Choice }).set_players players))

/-- `Game::gen_cc_go_to_any_property`. -/
def gen_cc_go_to_any_property (s : GameState) (handle : Nat) : List StateDiff :=
  let curr_pindex := s.current_pindex
  PROP_POSITIONS.map (fun pos =>
    let players := s.players.set curr_pindex
      { s.players.getD curr_pindex Player.new with position := pos }
    let new_state := { StateDiff.new_with_parent handle with
                       branch_type := BranchType.Choice }
    let new_state := new_state.set_players players
    let new_state := { new_state with next_move := MoveType.Property }
    if s.seen_ccs.length = TOTAL_CHANCE_CARDS then
      new_state.set_top_cc s.get_next_top_cc
    else
      new_state.set_seen_ccs (s.seen_ccs ++ [ChanceCard.GoToAnyProperty]))

/-- The `match` dispatch inside `Game::gen_choiceful_cc_children`; `[]` on a
choiceless card models the abort (unreachable from the embedded call sites). -/
def gen_choiceful_cc_dispatch (s : GameState) (handle : Nat) (cc : ChanceCard) :
    List StateDiff :=
  match cc with
  | .RentTo5 => gen_cc_rent_to_x s true handle
  | .RentTo1 => gen_cc_rent_to_x s false handle
  | .SetRentInc => gen_cc_set_rent_change s true handle
  | .SetRentDec => gen_cc_set_rent_change s false handle
  | .SideRentInc => gen_cc_side_rent_change s true handle
  | .SideRentDec => gen_cc_side_rent_change s false handle
  | .RentSpike => gen_cc_rent_spike s handle
  | .Bonus => gen_cc_bonus s handle
  | .SwapProperty => gen_cc_swap_property s handle
  | .OpponentToJail => gen_cc_opponent_to_jail s handle
  | .GoToAnyProperty => gen_cc_go_to_any_property s handle
  | _ => []

/-- `Game::gen_choiceful_cc_children`: the dispatch above plus the no-legal-
choice fallback child with `Chance(1)`. -/
def gen_choiceful_cc_children (s : GameState) (handle : Nat) (cc : ChanceCard) :
    List StateDiff :=
  let children := gen_choiceful_cc_dispatch s handle cc
  if children.length > 0 then children
  else [{ new_state_from_cc s cc handle with branch_type := BranchType.Chance 1 }]

/-- `Game::gen_cc_children`. -/
def gen_cc_children (s : GameState) (handle : Nat) : List StateDiff :=
  let seen_ccs := s.seen_ccs
  if seen_ccs.length = TOTAL_CHANCE_CARDS then
    let definite_cc := seen_ccs.getD s.top_cc default
    if definite_cc.is_choiceless then
      (gen_choiceless_cc_child s definite_cc handle 1).toList
    else
      gen_choiceful_cc_children s handle definite_cc
  else
    ChanceCard.all.flatMap (fun card =>
      let count := ChanceCard.unseen_count seen_ccs card
      if count = 0 then []
      else
        let probability : ℚ :=
          (count : ℚ) / ((TOTAL_CHANCE_CARDS : ℚ) - (seen_ccs.length : ℚ))
        if card.is_choiceless then
          (gen_choiceless_cc_child s card handle probability).toList
        else
          [{ StateDiff.new_with_parent handle with
             message := DiffMessage.ChanceCard card,
             branch_type := BranchType.Chance probability,
             next_move := MoveType.ChoicefulCC card }])

/-! ### mod.rs — location, property, auction and sell expansions -/

/-- `Game::gen_location_children`. -/
def gen_location_children (s : GameState) (handle : Nat) : List StateDiff :=
  let curr_pindex := s.current_pindex
  (PROP_POSITIONS.map (fun pos =>
    let players := s.players.set curr_pindex
      (let p := s.players.getD curr_pindex Player.new
       { p with balance := p.balance - 100, position := pos })
    let new_state := { StateDiff.new_with_parent handle with
                       message := DiffMessage.Location pos,
                       next_move := MoveType.Property,
                       branch_type := BranchType.Choice }
    new_state.set_players players)) ++
  [{ advance_move s { StateDiff.new_with_parent handle with
                      message := DiffMessage.NoLocation } with
     branch_type := BranchType.Choice }]

/-- The owned-property branch of `Game::gen_property_children`. -/
def prop_owned_child (s : GameState) (handle : Nat) (prop : PropertyOwnership) : StateDiff :=
  let curr_pindex := s.current_pindex
  let player_pos := s.get_current_player.position
  let new_state := { StateDiff.new_with_parent handle with
                     branch_type := BranchType.Chance 1 }
  let new_state :=
    if !(prop.owner == curr_pindex) then
      let new_rent_level := if s.level_1_rent = 0 then prop.rent_level else 1
      let balance_due := (((PROPERTIES player_pos).getD default).rents).getD (new_rent_level - 1) 0
      let players := s.players.set curr_pindex
        (let p := s.players.getD curr_pindex Player.new
         { p with balance := p.balance - balance_due })
      let players := players.set prop.owner
        (let p := players.getD prop.owner Player.new
         { p with balance := p.balance + balance_due })
      let new_state :=
        if (players.getD curr_pindex Player.new).balance < 0 then
          { new_state with next_move := MoveType.SellProperty }
        else new_state
      { new_state.set_players players with message := DiffMessage.LandOppProp }
    else { new_state with message := DiffMessage.LandOwnProp }
  let new_state := new_state.set_owned_properties (props_raise_rent s.owned_properties player_pos).1
  match new_state.next_move with
  | MoveType.Undefined => advance_move s new_state
  | _ => new_state

/-- The buy child of `Game::gen_property_children`. -/
def buy_prop_child (s : GameState) (handle : Nat) : StateDiff :=
  let curr_pindex := s.current_pindex
  let player_pos := s.get_current_player.position
  let buy_state := advance_move s { StateDiff.new_with_parent handle with
                                    message := DiffMessage.BuyProp }
  let buy_state := { buy_state with branch_type := BranchType.Choice }
  let buy_state_players := s.players.set curr_pindex
    (let p := s.players.getD curr_pindex Player.new
     { p with balance := p.balance - ((PROPERTIES player_pos).getD default).price })
  let buy_state := buy_state.set_players buy_state_players
  buy_state.set_owned_properties
    (props_insert s.owned_properties player_pos { owner := curr_pindex, rent_level := 1 })

/-- The auction child of `Game::gen_property_children`. -/
def auction_prop_child (handle : Nat) : StateDiff :=
  { StateDiff.new_with_parent handle with
    message := DiffMessage.AuctionProp,
    branch_type := BranchType.Choice,
    next_move := MoveType.Auction }

/-- `Game::gen_property_children`. -/
def gen_property_children (s : GameState) (handle : Nat) : List StateDiff :=
  let player_pos := s.get_current_player.position
  match s.owned_properties.lookup player_pos with
  | some prop => [prop_owned_child s handle prop]
  | none =>
    let curr_player_balance := (s.players.getD s.current_pindex Player.new).balance
    (if curr_player_balance > ((PROPERTIES player_pos).getD default).price then
      [buy_prop_child s handle]
    else []) ++ [auction_prop_child handle]

/-- The inner loop body of `Game::gen_auction_children`: the child in which
`wc` wins the auction with bid `bc`. -/
def auction_child (s : GameState) (handle : Nat) (wc : Nat × ℚ) (bc : Int × ℚ) :
    StateDiff :=
  let players := s.players
  let props := s.owned_properties
  let prop_pos := (players.getD s.current_pindex Player.new).position
  let players := players.set wc.1
    (let p := players.getD wc.1 Player.new; { p with balance := p.balance - bc.1 })
  let props := props_insert props prop_pos { owner := wc.1, rent_level := 1 }
  let new_state := { StateDiff.new_with_parent handle with
                     message := DiffMessage.AfterAuction wc.1 bc.1 }
  let new_state := new_state.set_players players
  let new_state := new_state.set_owned_properties props
  let new_state := { new_state with branch_type := BranchType.Chance (wc.2 * bc.2) }
  advance_move s new_state

/-- `Game::gen_auction_children`. -/
def gen_auction_children (s : GameState) (handle : Nat) : List StateDiff :=
  let children := (get_auction_winner_chances s).flatMap (fun wc =>
    (get_winning_bid_chances s wc.1).map (auction_child s handle wc))
  if children.length = 0 then
    [advance_move s { StateDiff.new_with_parent handle with
                      branch_type := BranchType.Chance 1 }]
  else children

/-- The inner loop body of `Game::gen_sell_prop_children`: the children for
all viable combinations of exactly `k` properties. Note the two quirks of the
source: `total_worth` prices `my_props[i]` but the removal is keyed on the
combination index `i` itself, and combinations are drawn by index. -/
def sell_children_at_k (s : GameState) (handle : Nat) (my_props : List Nat)
    (curr_balance : Int) (k : Nat) : List StateDiff :=
  (get_combinations my_props.length k).filterMap (fun comb =>
    let total_worth : Int :=
      (comb.map (fun i => ((PROPERTIES (my_props.getD i 0)).getD default).price)).sum
    if curr_balance + total_worth < 0 then none
    else
      let sell_prop := { StateDiff.new_with_parent handle with
                         branch_type := BranchType.Choice }
      let props := comb.foldl (fun props prop_i => props_remove props prop_i)
        s.owned_properties
      let sell_prop := sell_prop.set_owned_properties props
      let players := s.players.set s.current_pindex
        (let p := s.players.getD s.current_pindex Player.new
         { p with balance := p.balance + total_worth })
      let sell_prop := sell_prop.set_players players
      some (advance_move s sell_prop))

/-- The `for k in 1..my_props.len()` loop of `gen_sell_prop_children`: take
the children of the first `k` that yields any (the `stop_here` early exit). -/
def sell_candidates (s : GameState) (handle : Nat) (my_props : List Nat)
    (curr_balance : Int) : List StateDiff :=
  (List.range' 1 (my_props.length - 1)).foldl
    (fun acc k => if acc.length > 0 then acc else sell_children_at_k s handle my_props curr_balance k)
    []

/-- The positions of all the properties the current player owns (the
`my_props` vector of `gen_sell_prop_children`). -/
def sell_my_props (s : GameState) : List Nat :=
  s.owned_properties.filterMap
    (fun kv => if kv.2.owner = s.current_pindex then some kv.1 else none)

/-- `Game::gen_sell_prop_children`. -/
def gen_sell_prop_children (s : GameState) (handle : Nat) : List StateDiff :=
  let curr_pindex := s.current_pindex
  let curr_balance := (s.players.getD curr_pindex Player.new).balance
  let my_props := sell_my_props s
  if my_props.length = 0 then
    [advance_move s { StateDiff.new_with_parent handle with
                      branch_type := BranchType.Chance 1 }]
  else
    let children := sell_candidates s handle my_props curr_balance
    if children.length = 0 then
      [{ advance_move s (StateDiff.new_with_parent handle) with
         branch_type := BranchType.Chance 1 }]
    else children

/-! ### mod.rs — full expansion with post-processing -/

/-- The dispatch on `next_move` in `Game::gen_children`; `[]` on `Undefined`
models the abort (unreachable while playing). -/
def gen_children_dispatch (s : GameState) (handle : Nat) : List StateDiff :=
  match s.next_move with
  | MoveType.Roll => gen_roll_children s handle
  | MoveType.ChanceCard => gen_cc_children s handle
  | MoveType.ChoicefulCC cc => gen_choiceful_cc_children s handle cc
  | MoveType.Property => gen_property_children s handle
  | MoveType.SellProperty => gen_sell_prop_children s handle
  | MoveType.Auction => gen_auction_children s handle
  | MoveType.Location => gen_location_children s handle
  | MoveType.Undefined => []

/-- The level-1-rent post-processing pass of `gen_children` on one child. -/
def lvl1_adjust (s : GameState) (child : StateDiff) : StateDiff :=
  if s.level_1_rent > 0 && child.diff_exists .CurrentPlayer then
    child.set_level_1_rent (s.level_1_rent - 1)
  else child

/-- The jail-rounds post-processing pass of `gen_children` on one child:
decrement the child's own jail-rounds diff, or install the parent's
decremented one. -/
def jail_adjust (s : GameState) (child : StateDiff) : StateDiff :=
  match child.get_diff_index .JailRounds with
  | some i =>
    match child.diffs[i]? with
    | some (.JailRounds jr) =>
      { child with diffs :=
          child.diffs.set i (.JailRounds (jr.map (fun x => if x > 0 then x - 1 else 0))) }
    | _ => child
  | none =>
    child.set_jail_rounds (s.jail_rounds.map (fun x => if x > 0 then x - 1 else 0))

/-- `Game::gen_children`: dispatch plus the two post-processing passes. -/
def gen_children (s : GameState) (handle : Nat) : List StateDiff :=
  ((gen_children_dispatch s handle).map (lvl1_adjust s)).map (jail_adjust s)

/-! ### mod.rs — the node arena (`Game`) -/

/-- The game-tree arena (`mod.rs`, `Game`). The gameplay statistics are
omitted: they are written to but never influence the tree. -/
structure Game where
  root_turn : Nat
  move_history : List Nat
  nodes : List StateDiff
  dirty_handles : List Nat
  root_handle : Nat
deriving DecidableEq, Inhabited

/-- `Game::new`. -/
def Game.new (player_count : Nat) : Game :=
  { root_turn := 0, move_history := [], nodes := [StateDiff.new_root player_count],
    dirty_handles := [], root_handle := 0 }

/-- `Game::diff_field`: resolve a field by walking the parent chain. The Rust
recursion terminates because every live chain ends at a self-parented root
that carries every diff; the model uses fuel, `none` modelling both a missing
node and a chain that never resolves. -/
def Game.diff_field_fuel (g : Game) : Nat → Nat → DiffID → Option FieldDiff
  | 0, _, _ => none
  | fuel + 1, handle, diff_id =>
    match g.nodes[handle]? with
    | none => none
    | some s =>
      match s.get_diff_index diff_id with
      | some i => s.diffs[i]?
      | none => g.diff_field_fuel fuel s.parent diff_id

/-- `Game::mark_dirty`: append a handle and, recursively, all its descendants
to the dirty list. Fuel bounds the recursion; `none` models a missing node or
a cyclic (hence panicking/diverging) tree. -/
def Game.mark_dirty_fuel (g : Game) : Nat → Nat → List Nat → Option (List Nat)
  | 0, _, _ => none
  | fuel + 1, handle, acc =>
    match g.nodes[handle]? with
    | none => none
    | some s => s.children.foldlM (fun a c => g.mark_dirty_fuel fuel c a) (acc ++ [handle])

/-- `Vec::swap_remove`: replace element `i` with the last element and pop. -/
def list_swap_remove (l : List Nat) (i : Nat) : List Nat :=
  (l.set i (l.getD (l.length - 1) 0)).dropLast

/-- One iteration of the diff-materialisation loop in
`Game::advance_root_node`: if the new root lacks diff `d`, resolve it through
the (old) parent chain and install it. -/
def materialize_step (new_handle : Nat) (g : Game) (d : DiffID) : Option Game :=
  match g.nodes[new_handle]? with
  | none => none
  | some n =>
    if n.diff_exists d then some g
    else
      match g.diff_field_fuel (g.nodes.length + 1) new_handle d with
      | none => none
      | some v => some { g with nodes := g.nodes.set new_handle (n.set_diff d v) }

/-- `Game::advance_root_node`: commit the root's `child_index`-th child as the
new root — swap-remove it from the root's child list, mark the old root and
the remaining siblings dirty, bump the turn counter, materialise every
missing diff on the new root, record the move, self-parent the new root and
move the root handle. (The gameplay-statistics update is omitted: it only
reads node messages.) -/
def advance_root_node (g : Game) (child_index : Nat) : Option Game := do
  let root ← g.nodes[g.root_handle]?
  let new_handle ← root.children[child_index]?
  let root2 := { root with children := list_swap_remove root.children child_index }
  let g1 := { g with nodes := g.nodes.set g.root_handle root2 }
  let dirty2 ← root2.children.foldlM
    (fun a h => g1.mark_dirty_fuel (g1.nodes.length + 1) h a)
    (g1.dirty_handles ++ [g1.root_handle])
  let g2 := { g1 with dirty_handles := dirty2 }
  let n0 ← g2.nodes[new_handle]?
  let g3 := if n0.diff_exists .CurrentPlayer then
      { g2 with root_turn := g2.root_turn + 1 }
    else g2
  let g4 ← DiffID.all.foldlM (materialize_step new_handle) g3
  let g5 := { g4 with move_history := g4.move_history ++ [child_index] }
  let n1 ← g5.nodes[new_handle]?
  some { g5 with
         nodes := g5.nodes.set new_handle { n1 with parent := new_handle },
         root_handle := new_handle }

/-- `Game::get_children_chances`: the probabilities of all children of a node;
`none` models the panic on a non-chance child (or a missing node). -/
def get_children_chances (g : Game) (handle : Nat) : Option (List ℚ) :=
  match g.nodes[handle]? with
  | none => none
  | some s =>
    s.children.mapM (fun child_handle =>
      match g.nodes[child_handle]? with
      | none => none
      | some c =>
        match c.branch_type with
        | BranchType.Chance p => some p
        | _ => none)

/-- The scanning loop of `Game::get_any_chance_child`: return the first index
whose cumulative probability reaches `pos`, if any. -/
def chance_scan : List ℚ → ℚ → Option Nat
  | [], _ => none
  | c :: rest, pos =>
    if pos ≤ c then some 0 else (chance_scan rest (pos - c)).map (· + 1)

/-- `Game::get_any_chance_child` for a drawn `pos`: scan, falling back to the
last index on floating-point leftovers. -/
def get_any_chance_child (g : Game) (handle : Nat) (pos : ℚ) : Option Nat :=
  (get_children_chances g handle).map
    (fun chances => (chance_scan chances pos).getD (chances.length - 1))

/-! ### Representation invariant for the diff vector -/

/-- Number of set bits among bits 1–7 (the discriminant range of `DiffID`). -/
def popcnt7 (p : Nat) : Nat :=
  (p >>> 1 &&& 1) + (p >>> 2 &&& 1) + (p >>> 3 &&& 1) + (p >>> 4 &&& 1) +
    (p >>> 5 &&& 1) + (p >>> 6 &&& 1) + (p >>> 7 &&& 1)

/-- The representation invariant of `StateDiff`: `present_diffs` fits in a
`u8` and the diff vector holds exactly one entry per present field (ordered by
decreasing discriminant, so a field's index is the number of present fields
with a higher discriminant, as computed by `get_supposed_diff_index`). -/
def StateDiff.Wf (s : StateDiff) : Prop :=
  s.present_diffs < 256 ∧ s.diffs.length = popcnt7 s.present_diffs

/-! ### Specification-side helpers and concrete test states -/

/-- The `Chance` probability carried by a child, `0` for non-chance branches. -/
def chance_of (c : StateDiff) : ℚ :=
  match c.branch_type with
  | BranchType.Chance p => p
  | _ => 0

/-- Sum of the `Chance(p)` probabilities over a child list. -/
def chance_sum (l : List StateDiff) : ℚ :=
  (l.map chance_of).sum

/-- The seen-cards history is a sub-multiset of the full 21-card deck (the
precondition for `ChanceCard::unseen_counts` not to underflow). -/
def cc_seen_valid (seen : List ChanceCard) : Prop :=
  ∀ c : ChanceCard, seen.count c ≤ ChanceCard.base_count c

instance (seen : List ChanceCard) : Decidable (cc_seen_valid seen) :=
  inferInstanceAs (Decidable (∀ c : ChanceCard, seen.count c ≤ ChanceCard.base_count c))

/-- Test state: bankrupt player 0 owns exactly one property (position 5,
price 100) whose sale would cover the deficit. -/
def exSellOne : GameState :=
  { players := [{ in_jail := false, position := 5, balance := -50, doubles_rolled := 0 },
                Player.new],
    current_pindex := 0,
    owned_properties := [(5, { owner := 0, rent_level := 1 })],
    seen_ccs := [], top_cc := 0, level_1_rent := 0, jail_rounds := [0, 0],
    next_move := MoveType.SellProperty }

/-- Test state: bankrupt player 0 owns the properties at positions 5 and 8. -/
def exSellTwo : GameState :=
  { players := [{ in_jail := false, position := 5, balance := -50, doubles_rolled := 0 },
                Player.new],
    current_pindex := 0,
    owned_properties := [(5, { owner := 0, rent_level := 1 }),
                         (8, { owner := 0, rent_level := 1 })],
    seen_ccs := [], top_cc := 0, level_1_rent := 0, jail_rounds := [0, 0],
    next_move := MoveType.SellProperty }

/-- Test state: player 0 in jail with no jail rounds left. -/
def exJailExit : GameState :=
  { players := [{ in_jail := true, position := 9, balance := 1500, doubles_rolled := 0 },
                Player.new],
    current_pindex := 0,
    owned_properties := [], seen_ccs := [], top_cc := 0, level_1_rent := 0,
    jail_rounds := [0, 0], next_move := MoveType.Roll }

/-- Test state: player 0 (not in jail) has rolled two consecutive doubles. -/
def exTripleDouble : GameState :=
  { players := [{ in_jail := false, position := 0, balance := 1500, doubles_rolled := 2 },
                Player.new],
    current_pindex := 0,
    owned_properties := [], seen_ccs := [], top_cc := 0, level_1_rent := 0,
    jail_rounds := [0, 0], next_move := MoveType.Roll }

/-- Test state: player 0 on the unowned property at position 1 (price 60) with
balance exactly 60. -/
def exBuyEq : GameState :=
  { players := [{ in_jail := false, position := 1, balance := 60, doubles_rolled := 0 },
                Player.new],
    current_pindex := 0,
    owned_properties := [], seen_ccs := [], top_cc := 0, level_1_rent := 0,
    jail_rounds := [0, 0], next_move := MoveType.Property }

/-- Test state: player 0 on the unowned property at position 1 (price 60) with
balance 100. -/
def exBuyMore : GameState :=
  { players := [{ in_jail := false, position := 1, balance := 100, doubles_rolled := 0 },
                Player.new],
    current_pindex := 0,
    owned_properties := [], seen_ccs := [], top_cc := 0, level_1_rent := 0,
    jail_rounds := [0, 0], next_move := MoveType.Property }

/-- Test state: a chance-card draw with one card already seen. -/
def exChanceDraw : GameState :=
  { players := [Player.new, Player.new],
    current_pindex := 0,
    owned_properties := [], seen_ccs := [ChanceCard.RentTo1], top_cc := 0,
    level_1_rent := 0, jail_rounds := [0, 0], next_move := MoveType.ChanceCard }

/-- Test arena: a two-player root with a single expanded child. -/
def exGame : Game :=
  { root_turn := 0, move_history := [],
    nodes := [{ StateDiff.new_root 2 with children := [1] }, StateDiff.new_with_parent 0],
    dirty_handles := [], root_handle := 0 }

/-- The arena `exGame` after committing its only child as the new root. -/
def exGame2 : Game :=
  (advance_root_node exGame 0).getD default

/-- Test node: a root with two chance children. -/
def exChanceRoot : StateDiff :=
  { StateDiff.new_root 2 with children := [1, 2] }

/-- Test arena: a root whose two children are `Chance(1/2)` branches. -/
def exChanceGame : Game :=
  { root_turn := 0, move_history := [],
    nodes := [exChanceRoot,
              { StateDiff.new_with_parent 0 with branch_type := BranchType.Chance (1 / 2) },
              { StateDiff.new_with_parent 0 with branch_type := BranchType.Chance (1 / 2) }],
    dirty_handles := [], root_handle := 0 }


/-! ## Theorems -/

theorem set_diff_branch_type (s : StateDiff) (d : DiffID) (v : FieldDiff) :
    (s.set_diff d v).branch_type = s.branch_type := by
  unfold StateDiff.set_diff; dsimp only; split <;> rfl

theorem set_diff_next_move (s : StateDiff) (d : DiffID) (v : FieldDiff) :
    (s.set_diff d v).next_move = s.next_move := by
  unfold StateDiff.set_diff; dsimp only; split <;> rfl

theorem set_diff_parent (s : StateDiff) (d : DiffID) (v : FieldDiff) :
    (s.set_diff d v).parent = s.parent := by
  unfold StateDiff.set_diff; dsimp only; split <;> rfl

theorem set_diff_message (s : StateDiff) (d : DiffID) (v : FieldDiff) :
    (s.set_diff d v).message = s.message := by
  unfold StateDiff.set_diff; dsimp only; split <;> rfl

attribute [simp] set_diff_branch_type set_diff_next_move set_diff_parent set_diff_message

theorem advance_move_branch_type (s : GameState) (st : StateDiff) :
    (advance_move s st).branch_type = st.branch_type := by
  unfold advance_move; dsimp only; split <;> simp [StateDiff.set_current_pindex]

attribute [simp] advance_move_branch_type

theorem significant_rolls_eq :
    significant_rolls =
      [⟨1/36, 2, true⟩,
       ⟨1/36 + 1/36, 3, false⟩,
       ⟨1/36 + 1/36, 4, false⟩,
       ⟨1/36 + 1/36 + 1/36 + 1/36, 5, false⟩,
       ⟨1/36 + 1/36 + 1/36 + 1/36, 6, false⟩,
       ⟨1/36 + 1/36 + 1/36 + 1/36 + 1/36 + 1/36, 7, false⟩,
       ⟨1/36, 4, true⟩,
       ⟨1/36 + 1/36 + 1/36 + 1/36, 8, false⟩,
       ⟨1/36, 6, true⟩,
       ⟨1/36 + 1/36 + 1/36 + 1/36, 9, false⟩,
       ⟨1/36, 8, true⟩,
       ⟨1/36 + 1/36, 10, false⟩,
       ⟨1/36, 10, true⟩,
       ⟨1/36 + 1/36, 11, false⟩,
       ⟨1/36, 12, true⟩] := rfl

theorem sum_probabilities_significant_rolls :
    ((significant_rolls.map (fun r => r.probability)).sum : ℚ) = 1 := by
  rw [significant_rolls_eq]; norm_num

theorem sum_probabilities_doubles :
    (((significant_rolls.filter (fun r => r.is_double)).map (fun r => r.probability)).sum : ℚ)
      = 1 / 6 := by
  rw [significant_rolls_eq]; norm_num [List.filter]

theorem single_probability_eq : single_probability = 5 / 6 := by
  unfold single_probability; rw [significant_rolls_eq]; norm_num [List.filter]

theorem chance_sum_nil : chance_sum [] = 0 := rfl

theorem chance_sum_cons (c : StateDiff) (l : List StateDiff) :
    chance_sum (c :: l) = chance_of c + chance_sum l := by simp [chance_sum]

theorem chance_sum_append (l1 l2 : List StateDiff) :
    chance_sum (l1 ++ l2) = chance_sum l1 + chance_sum l2 := by simp [chance_sum]

attribute [simp] chance_sum_nil chance_sum_cons chance_sum_append

theorem chance_sum_map_rolls (l : List DiceRoll) (f : DiceRoll → StateDiff)
    (h : ∀ r, (f r).branch_type = BranchType.Chance r.probability) :
    chance_sum (l.map f) = (l.map (fun r => r.probability)).sum := by
  induction l with
  | nil => rfl
  | cons a t ih => simp [chance_of, h, ih]

theorem jail_roll_child_branch_type (s : GameState) (h jr : Nat) (roll : DiceRoll) :
    (jail_roll_child s h jr roll).branch_type = BranchType.Chance roll.probability := by
  unfold jail_roll_child; dsimp only
  split <;> split <;> simp [StateDiff.set_players, StateDiff.set_current_pindex]

theorem normal_roll_finish_branch_type (s : GameState) (st : StateDiff) (ps : List Player) :
    (normal_roll_finish s st ps).branch_type = st.branch_type := by
  unfold normal_roll_finish; dsimp only
  split <;> simp [StateDiff.set_players, StateDiff.set_current_pindex]

theorem normal_roll_child_branch_type (s : GameState) (h : Nat) (roll : DiceRoll) :
    (normal_roll_child s h roll).branch_type = BranchType.Chance roll.probability := by
  unfold normal_roll_child; dsimp only
  split
  · simp [normal_roll_finish_branch_type, StateDiff.set_jail_rounds]
  · split
    · split <;> simp [normal_roll_finish_branch_type]
    · simp [normal_roll_finish_branch_type]

theorem stay_in_jail_child_branch_type (s : GameState) (h : Nat) :
    (stay_in_jail_child s h).branch_type = BranchType.Chance single_probability := by
  simp [stay_in_jail_child, StateDiff.set_current_pindex]

theorem chance_sum_gen_roll_children (s : GameState) (handle : Nat) :
    chance_sum (gen_roll_children s handle) = 1 := by
  unfold gen_roll_children
  dsimp only
  split
  · by_cases hj : s.jail_rounds.getD s.current_pindex 0 = 0
    · rw [hj]
      simp only [beq_self_eq_true, Bool.or_true, List.filter_true, gt_iff_lt,
        Nat.lt_irrefl, if_false]
      rw [chance_sum_map_rolls _ _ (jail_roll_child_branch_type s handle 0)]
      exact sum_probabilities_significant_rolls
    · have hj2 : (s.jail_rounds.getD s.current_pindex 0 == 0) = false := by
        simpa using hj
      have hj3 : 0 < s.jail_rounds.getD s.current_pindex 0 := Nat.pos_of_ne_zero hj
      rw [hj2]
      simp only [Bool.or_false, gt_iff_lt, hj3, if_true]
      rw [chance_sum_append,
        chance_sum_map_rolls _ _
          (jail_roll_child_branch_type s handle (s.jail_rounds.getD s.current_pindex 0))]
      simp [chance_of, stay_in_jail_child_branch_type, sum_probabilities_doubles,
        single_probability_eq]
      norm_num
  · rw [chance_sum_map_rolls _ _ (normal_roll_child_branch_type s handle)]
    exact sum_probabilities_significant_rolls


theorem sum_map_add_nat {α : Type} (l : List α) (f g : α → Nat) :
    (l.map (fun c => f c + g c)).sum = (l.map f).sum + (l.map g).sum := by
  induction l with
  | nil => rfl
  | cons a t ih => simp [ih]; omega

theorem sum_map_sub_nat {α : Type} (l : List α) (f g : α → Nat)
    (h : ∀ c ∈ l, g c ≤ f c) :
    (l.map g).sum ≤ (l.map f).sum ∧
      (l.map (fun c => f c - g c)).sum = (l.map f).sum - (l.map g).sum := by
  induction l with
  | nil => simp
  | cons a t ih =>
    have ha := h a (by simp)
    have ht := ih (fun c hc => h c (by simp [hc]))
    simp only [List.map_cons, List.sum_cons]
    omega

theorem count_all_single (x : ChanceCard) :
    (ChanceCard.all.map (fun c => if x == c then (1 : Nat) else 0)).sum = 1 := by
  cases x <;> decide

theorem sum_counts_all (seen : List ChanceCard) :
    (ChanceCard.all.map (fun c => seen.count c)).sum = seen.length := by
  induction seen with
  | nil => decide
  | cons x t ih =>
    simp only [List.count_cons]
    rw [sum_map_add_nat, ih, count_all_single, List.length_cons]

theorem sum_unseen_counts (seen : List ChanceCard) (hv : cc_seen_valid seen) :
    seen.length ≤ TOTAL_CHANCE_CARDS ∧
      (ChanceCard.all.map (fun c => ChanceCard.unseen_count seen c)).sum
        = TOTAL_CHANCE_CARDS - seen.length := by
  have hbase : (ChanceCard.all.map ChanceCard.base_count).sum = TOTAL_CHANCE_CARDS := by decide
  have hsub := sum_map_sub_nat ChanceCard.all ChanceCard.base_count (fun c => seen.count c)
    (fun c _ => hv c)
  rw [sum_counts_all, hbase] at hsub
  unfold ChanceCard.unseen_count
  exact ⟨hsub.1, hsub.2⟩

theorem chance_sum_flatMap {α : Type} (l : List α) (f : α → List StateDiff) :
    chance_sum (l.flatMap f) = (l.map (fun x => chance_sum (f x))).sum := by
  induction l with
  | nil => rfl
  | cons a t ih => rw [List.flatMap_cons, chance_sum_append, ih, List.map_cons, List.sum_cons]

theorem gen_cc_property_tax_branch_type (s : GameState) (q : ℚ) (h : Nat) :
    (gen_cc_property_tax s q h).branch_type = BranchType.Chance q := by
  simp [gen_cc_property_tax, StateDiff.set_players]

theorem gen_cc_level_1_rent_branch_type (s : GameState) (q : ℚ) (h : Nat) :
    (gen_cc_level_1_rent s q h).branch_type = BranchType.Chance q := by
  simp [gen_cc_level_1_rent, StateDiff.set_level_1_rent]

theorem gen_cc_all_to_parking_branch_type (s : GameState) (q : ℚ) (h : Nat) :
    (gen_cc_all_to_parking s q h).branch_type = BranchType.Chance q := by
  simp [gen_cc_all_to_parking, StateDiff.set_players]

theorem chance_sum_cc_arm (s : GameState) (handle : Nat) (card : ChanceCard) (q : ℚ) :
    chance_sum
      (if card.is_choiceless then (gen_choiceless_cc_child s card handle q).toList
       else [{ StateDiff.new_with_parent handle with
               message := DiffMessage.ChanceCard card,
               branch_type := BranchType.Chance q,
               next_move := MoveType.ChoicefulCC card }]) = q := by
  cases card <;>
    simp [ChanceCard.is_choiceless, gen_choiceless_cc_child, chance_of,
      gen_cc_property_tax_branch_type, gen_cc_level_1_rent_branch_type,
      gen_cc_all_to_parking_branch_type]

theorem chance_sum_gen_cc_children (s : GameState) (handle : Nat)
    (hv : cc_seen_valid s.seen_ccs) (hlen : s.seen_ccs.length < TOTAL_CHANCE_CARDS) :
    chance_sum (gen_cc_children s handle) = 1 := by
  have hD : ((TOTAL_CHANCE_CARDS : ℚ) - (s.seen_ccs.length : ℚ)) ≠ 0 := by
    have : (s.seen_ccs.length : ℚ) < (TOTAL_CHANCE_CARDS : ℚ) := by exact_mod_cast hlen
    linarith
  unfold gen_cc_children
  rw [if_neg (Nat.ne_of_lt hlen)]
  rw [chance_sum_flatMap]
  have harm : ∀ card ∈ ChanceCard.all,
      chance_sum
        (if ChanceCard.unseen_count s.seen_ccs card = 0 then []
         else
           if card.is_choiceless then
             (gen_choiceless_cc_child s card handle
               ((ChanceCard.unseen_count s.seen_ccs card : ℚ) /
                 ((TOTAL_CHANCE_CARDS : ℚ) - (s.seen_ccs.length : ℚ)))).toList
           else
             [{ StateDiff.new_with_parent handle with
                message := DiffMessage.ChanceCard card,
                branch_type := BranchType.Chance
                  ((ChanceCard.unseen_count s.seen_ccs card : ℚ) /
                    ((TOTAL_CHANCE_CARDS : ℚ) - (s.seen_ccs.length : ℚ))),
                next_move := MoveType.ChoicefulCC card }]) =
      (ChanceCard.unseen_count s.seen_ccs card : ℚ) /
        ((TOTAL_CHANCE_CARDS : ℚ) - (s.seen_ccs.length : ℚ)) := by
    intro card _
    by_cases hc : ChanceCard.unseen_count s.seen_ccs card = 0
    · simp [hc]
    · rw [if_neg hc]
      exact chance_sum_cc_arm s handle card _
  rw [List.map_congr_left harm]
  have hmul : (ChanceCard.all.map (fun c =>
      (ChanceCard.unseen_count s.seen_ccs c : ℚ) /
        ((TOTAL_CHANCE_CARDS : ℚ) - (s.seen_ccs.length : ℚ)))).sum =
      ((ChanceCard.all.map (fun c => (ChanceCard.unseen_count s.seen_ccs c : ℚ))).sum) /
        ((TOTAL_CHANCE_CARDS : ℚ) - (s.seen_ccs.length : ℚ)) := by
    simp only [div_eq_mul_inv]
    rw [List.sum_map_mul_right]
  rw [hmul]
  have hcast : (ChanceCard.all.map (fun c =>
      (ChanceCard.unseen_count s.seen_ccs c : ℚ))).sum =
      (((ChanceCard.all.map (fun c => ChanceCard.unseen_count s.seen_ccs c)).sum : ℕ) : ℚ) := by
    rw [Nat.cast_list_sum, List.map_map]
    rfl
  rw [hcast, (sum_unseen_counts s.seen_ccs hv).2]
  have hle := (sum_unseen_counts s.seen_ccs hv).1
  rw [Nat.cast_sub hle]
  exact div_self hD


theorem chance_sum_map {α : Type} (l : List α) (f : α → StateDiff) (v : α → ℚ)
    (h : ∀ x ∈ l, (f x).branch_type = BranchType.Chance (v x)) :
    chance_sum (l.map f) = (l.map v).sum := by
  induction l with
  | nil => rfl
  | cons a t ih =>
    rw [List.map_cons, chance_sum_cons, List.map_cons, List.sum_cons,
      ih (fun x hx => h x (List.mem_cons_of_mem a hx))]
    unfold chance_of
    rw [h a (List.mem_cons_self a t)]

theorem collapse_step_sum (acc : List (Int × ℚ)) (pc : Int × ℚ) :
    ((bid_collapse_step acc pc).map (fun x => x.2)).sum
      = (acc.map (fun x => x.2)).sum + pc.2 := by
  unfold bid_collapse_step
  induction acc using List.reverseRecOn with
  | nil => simp
  | append_singleton as a _ =>
    rw [List.getLast?_concat]
    by_cases h : pc.1 = a.1
    · simp only [h, if_true, List.dropLast_concat, List.map_append, List.sum_append,
        List.map_cons, List.sum_cons, List.map_nil, List.sum_nil]
      ring
    · simp only [h, if_false, List.map_append, List.sum_append, List.map_cons,
        List.sum_cons, List.map_nil, List.sum_nil]
      ring

theorem collapse_fold_sum (l acc : List (Int × ℚ)) :
    ((l.foldl bid_collapse_step acc).map (fun x => x.2)).sum
      = (acc.map (fun x => x.2)).sum + (l.map (fun x => x.2)).sum := by
  induction l generalizing acc with
  | nil => simp
  | cons p t ih =>
    rw [List.foldl_cons, ih, collapse_step_sum, List.map_cons, List.sum_cons]
    ring

theorem winning_bid_chances_sum (s : GameState) (w : Nat)
    (hbal : 20 ≤ (s.players.getD w Player.new).balance) :
    ((get_winning_bid_chances s w).map (fun x => x.2)).sum = 1 := by
  unfold get_winning_bid_chances
  rw [if_neg (by omega)]
  rw [collapse_fold_sum]
  norm_num

theorem winning_bid_chances_ne_nil (s : GameState) (w : Nat)
    (hbal : 20 ≤ (s.players.getD w Player.new).balance) :
    get_winning_bid_chances s w ≠ [] := by
  intro h
  have h2 := winning_bid_chances_sum s w hbal
  rw [h] at h2
  simp at h2

theorem mem_winner_chances (s : GameState) (wc : Nat × ℚ)
    (h : wc ∈ get_auction_winner_chances s) :
    20 ≤ (s.players.getD wc.1 Player.new).balance := by
  unfold get_auction_winner_chances at h
  simp only [List.mem_map] at h
  obtain ⟨ip, hip, heq⟩ := h
  rw [List.mem_filter] at hip
  have hbal : 20 ≤ ip.2.balance := by
    have := hip.2
    simp only [ge_iff_le, decide_eq_true_eq] at this
    exact this
  have hget : s.players[ip.1]? = some ip.2 := List.mem_enum_iff_getElem?.mp hip.1
  have hgd : s.players.getD ip.1 Player.new = ip.2 := by
    rw [List.getD_eq_getElem?_getD, hget]
    rfl
  rw [← heq]
  dsimp only
  rw [hgd]
  exact hbal

theorem auction_winner_chances_sum (s : GameState)
    (hne : s.players.enum.filter (fun ip => decide (ip.2.balance ≥ 20)) ≠ []) :
    ((get_auction_winner_chances s).map (fun x => x.2)).sum = 1 := by
  unfold get_auction_winner_chances
  dsimp only
  have hpos : ∀ x ∈ (s.players.enum.filter
      (fun ip => decide (ip.2.balance ≥ 20))).map (fun ip => ip.2.balance), 0 < x := by
    intro x hx
    rw [List.mem_map] at hx
    obtain ⟨ip, hip, heq⟩ := hx
    rw [List.mem_filter] at hip
    have := hip.2
    simp only [ge_iff_le, decide_eq_true_eq] at this
    omega
  have hmapne : (s.players.enum.filter
      (fun ip => decide (ip.2.balance ≥ 20))).map (fun ip => ip.2.balance) ≠ [] := by
    simpa using hne
  have htot : (0 : Int) < ((s.players.enum.filter
      (fun ip => decide (ip.2.balance ≥ 20))).map (fun ip => ip.2.balance)).sum :=
    List.sum_pos _ hpos hmapne
  rw [List.map_map]
  rw [show ((fun x : Nat × ℚ => x.2) ∘ (fun ip : Nat × Player => (ip.1, (ip.2.balance : ℚ) /
      ((((s.players.enum.filter (fun ip => decide (ip.2.balance ≥ 20))).map
        (fun ip => ip.2.balance)).sum : Int) : ℚ)))) = (fun ip : Nat × Player =>
      (ip.2.balance : ℚ) / ((((s.players.enum.filter
        (fun ip => decide (ip.2.balance ≥ 20))).map
        (fun ip => ip.2.balance)).sum : Int) : ℚ)) from rfl]
  simp only [div_eq_mul_inv]
  rw [List.sum_map_mul_right]
  have hcast : ((s.players.enum.filter (fun ip => decide (ip.2.balance ≥ 20))).map
      (fun ip => (ip.2.balance : ℚ))).sum
      = ((((s.players.enum.filter (fun ip => decide (ip.2.balance ≥ 20))).map
        (fun ip => ip.2.balance)).sum : Int) : ℚ) := by
    rw [Int.cast_list_sum, List.map_map]
    rfl
  rw [hcast, ← div_eq_mul_inv]
  apply div_self
  exact_mod_cast htot.ne.symm


theorem auction_child_branch_type (s : GameState) (handle : Nat) (wc : Nat × ℚ)
    (bc : Int × ℚ) :
    (auction_child s handle wc bc).branch_type = BranchType.Chance (wc.2 * bc.2) := by
  unfold auction_child
  rw [advance_move_branch_type]

theorem chance_sum_gen_auction_children (s : GameState) (handle : Nat) :
    chance_sum (gen_auction_children s handle) = 1 := by
  by_cases hne : s.players.enum.filter (fun ip => decide (ip.2.balance ≥ 20)) = []
  · have hwc : get_auction_winner_chances s = [] := by
      unfold get_auction_winner_chances
      rw [hne]
      rfl
    unfold gen_auction_children
    rw [hwc]
    simp [chance_of]
  · have hwcne : get_auction_winner_chances s ≠ [] := by
      unfold get_auction_winner_chances
      dsimp only
      simpa using hne
    have hinner : ∀ wc ∈ get_auction_winner_chances s,
        chance_sum ((get_winning_bid_chances s wc.1).map (auction_child s handle wc))
          = wc.2 := by
      intro wc hwc
      rw [chance_sum_map _ _ (fun bc => wc.2 * bc.2)
        (fun bc _ => auction_child_branch_type s handle wc bc)]
      rw [List.sum_map_mul_left, winning_bid_chances_sum s wc.1 (mem_winner_chances s wc hwc),
        mul_one]
    have hflat : chance_sum ((get_auction_winner_chances s).flatMap (fun wc =>
        (get_winning_bid_chances s wc.1).map (auction_child s handle wc))) = 1 := by
      rw [chance_sum_flatMap, List.map_congr_left hinner,
        auction_winner_chances_sum s hne]
    have hlen : ((get_auction_winner_chances s).flatMap (fun wc =>
        (get_winning_bid_chances s wc.1).map (auction_child s handle wc))) ≠ [] := by
      intro hnil
      rw [List.flatMap_eq_nil_iff] at hnil
      obtain ⟨wc, hwc⟩ := List.exists_mem_of_ne_nil _ hwcne
      have hb := hnil wc hwc
      rw [List.map_eq_nil_iff] at hb
      exact winning_bid_chances_ne_nil s wc.1 (mem_winner_chances s wc hwc) hb
    unfold gen_auction_children
    dsimp only
    rw [if_neg (fun h0 => hlen (List.length_eq_zero.mp h0))]
    exact hflat


theorem chance_sum_choiceful_fallback (s : GameState) (handle : Nat) (cc : ChanceCard)
    (h : gen_choiceful_cc_dispatch s handle cc = []) :
    chance_sum (gen_choiceful_cc_children s handle cc) = 1 := by
  unfold gen_choiceful_cc_children
  rw [h]
  simp [chance_of]

theorem prop_owned_child_branch_type (s : GameState) (handle : Nat)
    (prop : PropertyOwnership) :
    (prop_owned_child s handle prop).branch_type = BranchType.Chance 1 := by
  unfold prop_owned_child
  dsimp only
  split <;>
    simp only [advance_move_branch_type, StateDiff.set_owned_properties,
      StateDiff.set_players, set_diff_branch_type] <;>
    split_ifs <;>
    simp [StateDiff.set_players, StateDiff.set_diff]

theorem chance_sum_gen_property_owned (s : GameState) (handle : Nat)
    (hp : (s.owned_properties.lookup s.get_current_player.position).isSome) :
    chance_sum (gen_property_children s handle) = 1 := by
  unfold gen_property_children
  dsimp only
  obtain ⟨prop, hprop⟩ := Option.isSome_iff_exists.mp hp
  rw [hprop]
  simp [chance_of, prop_owned_child_branch_type]

theorem chance_sum_gen_sell_fallback (s : GameState) (handle : Nat)
    (h : sell_candidates s handle (sell_my_props s)
      ((s.players.getD s.current_pindex Player.new).balance) = []) :
    chance_sum (gen_sell_prop_children s handle) = 1 := by
  unfold gen_sell_prop_children
  dsimp only
  by_cases hm : (sell_my_props s).length = 0
  · rw [if_pos hm]
    simp [chance_of]
  · rw [if_neg hm, h]
    simp [chance_of]


/-- C1: for every node expanded by the expansion engine whose children are
Chance branches — dice rolls in or out of jail, chance-card draws with unseen
cards, auctions, and the single-child `Chance(1)` fallbacks of the choiceful-
chance-card, owned-property and forced-sale expansions — the `Chance(p)`
probabilities of the children sum to exactly 1 (the model computes with exact
rationals, so the spec's 1e-9 tolerance is subsumed). -/
theorem C1_probability_closure :
    (∀ s handle, chance_sum (gen_roll_children s handle) = 1) ∧
    (∀ s handle, cc_seen_valid s.seen_ccs → s.seen_ccs.length < TOTAL_CHANCE_CARDS →
      chance_sum (gen_cc_children s handle) = 1) ∧
    (∀ s handle, chance_sum (gen_auction_children s handle) = 1) ∧
    (∀ s handle cc, gen_choiceful_cc_dispatch s handle cc = [] →
      chance_sum (gen_choiceful_cc_children s handle cc) = 1) ∧
    (∀ s handle, (s.owned_properties.lookup s.get_current_player.position).isSome →
      chance_sum (gen_property_children s handle) = 1) ∧
    (∀ s handle, sell_candidates s handle (sell_my_props s)
        ((s.players.getD s.current_pindex Player.new).balance) = [] →
      chance_sum (gen_sell_prop_children s handle) = 1) :=
  ⟨chance_sum_gen_roll_children, chance_sum_gen_cc_children,
   chance_sum_gen_auction_children, chance_sum_choiceful_fallback,
   chance_sum_gen_property_owned, chance_sum_gen_sell_fallback⟩

/-- Witness for C1 at concrete states: a chance-card draw with one seen card
and a jailed player's roll. -/
theorem C1_probability_closure_witness :
    chance_sum (gen_cc_children exChanceDraw 0) = 1 ∧
    chance_sum (gen_roll_children exJailExit 0) = 1 :=
  ⟨C1_probability_closure.2.1 exChanceDraw 0 (by decide) (by decide),
   C1_probability_closure.1 exJailExit 0⟩


/-- C7: a node is terminal exactly when some player's balance is strictly
negative and the pending move is not `SellProperty` (`Game::is_terminal`). -/
theorem C7_is_terminal_iff (s : GameState) :
    is_terminal s = true ↔
      ((∃ p ∈ s.players, p.balance < 0) ∧ s.next_move ≠ MoveType.SellProperty) := by
  unfold is_terminal
  dsimp only
  rw [Bool.and_eq_true, List.any_eq_true]
  constructor
  · rintro ⟨⟨p, hp, hbal⟩, hns⟩
    refine ⟨⟨p, hp, by simpa using hbal⟩, ?_⟩
    intro hsell
    rw [hsell] at hns
    simp at hns
  · rintro ⟨⟨p, hp, hbal⟩, hns⟩
    refine ⟨⟨p, hp, by simpa using hbal⟩, ?_⟩
    cases h : s.next_move <;> simp_all

/-- C2: at `exSellOne` (bankrupt player owning exactly one property whose
list price covers the deficit) the sell expansion emits a single terminal
`Chance(1)` game-over child with no ownership override and no `Choice`
children at all — the `for k in 1..len` loop never tries `k = len`, so the
covering sale is never offered. -/
theorem C2_one_property_yields_gameover :
    (gen_sell_prop_children exSellOne 0).length = 1 ∧
    ((gen_sell_prop_children exSellOne 0).getD 0 default).branch_type
      = BranchType.Chance 1 ∧
    ((gen_sell_prop_children exSellOne 0).getD 0 default).read_owned_properties
      = Option.none ∧
    (∀ c ∈ gen_sell_prop_children exSellOne 0, c.branch_type ≠ BranchType.Choice) ∧
    (exSellOne.players.getD 0 Player.new).balance +
      ((PROPERTIES 5).getD default).price = 50 := by
  decide

/-- C5: at `exSellTwo` (bankrupt player owning positions 5 and 8) the first
sell child credits the proceeds of the property at position 5 but leaves the
ownership map unchanged: the code removes the combination index `0` as if it
were a board position, not `my_props[0] = 5`. -/
theorem C5_sell_keeps_sold_property :
    (gen_sell_prop_children exSellTwo 0).length = 2 ∧
    ((gen_sell_prop_children exSellTwo 0).getD 0 default).branch_type
      = BranchType.Choice ∧
    ((gen_sell_prop_children exSellTwo 0).getD 0 default).read_owned_properties
      = some [(5, { owner := 0, rent_level := 1 }), (8, { owner := 0, rent_level := 1 })] ∧
    ((gen_sell_prop_children exSellTwo 0).getD 0 default).read_players
      = some [{ in_jail := false, position := 5, balance := 50, doubles_rolled := 0 },
              Player.new] := by
  decide

/-- C4: at `exJailExit` (player in jail at position 9 with 0 jail rounds
left), the child for the non-double roll of sum 5 moves the player to tile 14
(a property tile, fee paid) but its pending move is `Roll`, because the code
computes `when_landed_on` from the position before the move. -/
theorem C4_jail_exit_pending_move_stale :
    ((gen_roll_children exJailExit 0).getD 3 default).next_move = MoveType.Roll ∧
    ((gen_roll_children exJailExit 0).getD 3 default).read_players
      = some [{ in_jail := false, position := 14, balance := 1400, doubles_rolled := 0 },
              Player.new] ∧
    MoveType.when_landed_on 14 = MoveType.Property ∧
    (∀ c ∈ gen_roll_children exJailExit 0, c.next_move = MoveType.Roll) := by
  decide


theorem getD_set_self {l : List Player} {i : Nat} {a d : Player} (h : i < l.length) :
    (l.set i a).getD i d = a := by
  rw [List.getD_eq_getElem?_getD, List.getElem?_set_self h]
  rfl

/-- C6 counterexample: at `exBuyEq` the current player's balance exactly
equals the price of the unowned property under them, yet no buy child is
emitted — only the auction child. -/
theorem C6_counterexample_exact_balance :
    (exBuyEq.players.getD 0 Player.new).balance = ((PROPERTIES 1).getD default).price ∧
    (gen_property_children exBuyEq 0).length = 1 ∧
    ((gen_property_children exBuyEq 0).getD 0 default).next_move = MoveType.Auction ∧
    (∀ c ∈ gen_property_children exBuyEq 0, c.message ≠ DiffMessage.BuyProp) := by
  decide

/-- C6 amended: for a `Property` expansion on an unowned tile, the `Choice`
buy child (debit the price, insert ownership at rent level 1) is emitted iff
the current player's balance strictly exceeds the price — on exact equality
only the auction child appears — and the `Choice` auction child with pending
move `Auction` is emitted in every case. -/
theorem C6_amended_buy_needs_strict_surplus (s : GameState) (handle : Nat)
    (prop : Property)
    (hprop : PROPERTIES s.get_current_player.position = some prop)
    (hunowned : s.owned_properties.lookup s.get_current_player.position = none) :
    ((s.players.getD s.current_pindex Player.new).balance ≤ prop.price →
      gen_property_children s handle = [auction_prop_child handle]) ∧
    (prop.price < (s.players.getD s.current_pindex Player.new).balance →
      gen_property_children s handle = [buy_prop_child s handle, auction_prop_child handle]) ∧
    (auction_prop_child handle).next_move = MoveType.Auction ∧
    (auction_prop_child handle).branch_type = BranchType.Choice ∧
    (buy_prop_child s handle).branch_type = BranchType.Choice ∧
    (buy_prop_child s handle).read_players
      = some (s.players.set s.current_pindex
          (let p := s.players.getD s.current_pindex Player.new
           { p with balance := p.balance - prop.price })) ∧
    (buy_prop_child s handle).read_owned_properties
      = some (s.owned_properties ++
          [(s.get_current_player.position,
            { owner := s.current_pindex, rent_level := 1 })]) := by
  refine ⟨?_, ?_, rfl, rfl, ?_, ?_, ?_⟩
  · intro hle
    unfold gen_property_children
    dsimp only
    rw [hunowned, hprop]
    rw [if_neg (by simp only [Option.getD_some]; omega)]
    rfl
  · intro hlt
    unfold gen_property_children
    dsimp only
    rw [hunowned, hprop]
    rw [if_pos (by simp only [Option.getD_some]; omega)]
    rfl
  · unfold buy_prop_child advance_move
    dsimp only
    split_ifs <;>
      simp [StateDiff.set_players, StateDiff.set_current_pindex,
      StateDiff.set_owned_properties, StateDiff.set_diff, StateDiff.diff_exists,
      StateDiff.get_supposed_diff_index, StateDiff.get_diff_index, StateDiff.read_players,
      StateDiff.read_owned_properties, StateDiff.read_diff, StateDiff.new_with_parent,
      List.insertIdx, DiffID.disc]
  · unfold buy_prop_child advance_move
    dsimp only
    rw [hprop]
    split_ifs <;>
      simp [StateDiff.set_players, StateDiff.set_current_pindex,
      StateDiff.set_owned_properties, StateDiff.set_diff, StateDiff.diff_exists,
      StateDiff.get_supposed_diff_index, StateDiff.get_diff_index, StateDiff.read_players,
      StateDiff.read_owned_properties, StateDiff.read_diff, StateDiff.new_with_parent,
      List.insertIdx, DiffID.disc, Option.getD_some]
  · unfold buy_prop_child advance_move props_insert
    dsimp only
    rw [hunowned]
    split_ifs <;>
      simp_all [StateDiff.set_players, StateDiff.set_current_pindex,
      StateDiff.set_owned_properties, StateDiff.set_diff, StateDiff.diff_exists,
      StateDiff.get_supposed_diff_index, StateDiff.get_diff_index, StateDiff.read_players,
      StateDiff.read_owned_properties, StateDiff.read_diff, StateDiff.new_with_parent,
      List.insertIdx, DiffID.disc, Option.isSome_none]

/-- Witness for C6 amended at `exBuyMore` (balance 100 on the price-60
property at position 1). -/
theorem C6_amended_witness :
    ((exBuyMore.players.getD 0 Player.new).balance ≤ (60 : Int) →
      gen_property_children exBuyMore 0 = [auction_prop_child 0]) ∧
    ((60 : Int) < (exBuyMore.players.getD 0 Player.new).balance →
      gen_property_children exBuyMore 0 = [buy_prop_child exBuyMore 0, auction_prop_child 0]) ∧
    (auction_prop_child 0).next_move = MoveType.Auction ∧
    (auction_prop_child 0).branch_type = BranchType.Choice ∧
    (buy_prop_child exBuyMore 0).branch_type = BranchType.Choice ∧
    (buy_prop_child exBuyMore 0).read_players
      = some (exBuyMore.players.set 0
          (let p := exBuyMore.players.getD 0 Player.new
           { p with balance := p.balance - (60 : Int) })) ∧
    (buy_prop_child exBuyMore 0).read_owned_properties
      = some (exBuyMore.owned_properties ++ [(1, { owner := 0, rent_level := 1 })]) := by
  have h := C6_amended_buy_needs_strict_surplus exBuyMore 0
    { color := Color.Brown, price := 60, rents := [70, 130, 220, 370, 750] } rfl rfl
  exact h



/-- C3 counterexample: at `exTripleDouble` (player 0 has two consecutive
doubles, rolls (1,1)), the resulting child sends the player to jail but the
jail-rounds entry is the decremented inherited value 0, not
`JAIL_TRIES = 3`. -/
theorem C3_counterexample_jail_tries_not_set :
    ((gen_children exTripleDouble 0).getD 0 default).message = DiffMessage.RollToJail ∧
    ((gen_children exTripleDouble 0).getD 0 default).read_players
      = some [{ in_jail := true, position := 9, balance := 1500, doubles_rolled := 0 },
              Player.new] ∧
    ((gen_children exTripleDouble 0).getD 0 default).read_jail_rounds = some [0, 0] ∧
    ¬ (((gen_children exTripleDouble 0).getD 0 default).read_jail_rounds.getD []).getD 0 99
        = JAIL_TRIES := by
  decide

/-- C3 amended: in a `Roll` expansion of a player who is not in jail, the
child in which the third consecutive double is rolled (not landing on the
go-to-jail tile) sends the roller to the jail tile with `in_jail` set and
`doubles_rolled` reset to 0, but the child's jail-rounds vector is **not**
set to `JAIL_TRIES`: it is the parent's vector decremented by the standard
post-processing pass (the `send_to_jail` branch for triple doubles, unlike
the go-to-jail-tile branch, never writes `jail_rounds`). -/
theorem C3_amended_triple_double_no_jail_tries (s : GameState) (handle : Nat)
    (roll : DiceRoll)
    (hmove : s.next_move = MoveType.Roll)
    (hi : s.current_pindex < s.players.length)
    (hjail : (s.players.getD s.current_pindex Player.new).in_jail = false)
    (hdbl : (s.players.getD s.current_pindex Player.new).doubles_rolled = 2)
    (hroll : roll ∈ significant_rolls)
    (hd : roll.is_double = true)
    (hpos : ¬ ((s.players.getD s.current_pindex Player.new).position + roll.sum) % 36
      = GO_TO_JAIL_POSITION) :
    jail_adjust s (lvl1_adjust s (normal_roll_child s handle roll)) ∈ gen_children s handle ∧
    ∃ ps, (jail_adjust s (lvl1_adjust s (normal_roll_child s handle roll))).read_players
        = some ps ∧
      (ps.getD s.current_pindex Player.new).position = JAIL_POSITION ∧
      (ps.getD s.current_pindex Player.new).in_jail = true ∧
      (ps.getD s.current_pindex Player.new).doubles_rolled = 0 ∧
      (jail_adjust s (lvl1_adjust s (normal_roll_child s handle roll))).read_jail_rounds
        = some (s.jail_rounds.map (fun x => if x > 0 then x - 1 else 0)) := by
  constructor
  · unfold gen_children gen_children_dispatch
    rw [hmove]
    unfold gen_roll_children
    dsimp only
    rw [hjail]
    simp only [Bool.false_eq_true, if_false]
    exact List.mem_map_of_mem _ (List.mem_map_of_mem _ (List.mem_map_of_mem _ hroll))
  · -- compute the child
    have hmoved : ((s.players.set s.current_pindex
        ((s.players.getD s.current_pindex Player.new).move_by roll.sum)).getD
          s.current_pindex Player.new)
        = (s.players.getD s.current_pindex Player.new).move_by roll.sum :=
      getD_set_self (by simpa using hi)
    have hmb_pos : ((s.players.getD s.current_pindex Player.new).move_by roll.sum).position
        = ((s.players.getD s.current_pindex Player.new).position + roll.sum) % 36 := by
      unfold Player.move_by
      dsimp only
    have hmb_dbl : ((s.players.getD s.current_pindex Player.new).move_by
        roll.sum).doubles_rolled = 2 := by
      unfold Player.move_by
      dsimp only
      split_ifs <;> simpa using hdbl
    -- unfold the roll child along the triple-double branch
    unfold normal_roll_child
    dsimp only
    rw [hmoved, hmb_pos]
    rw [if_neg hpos, if_pos hd]
    rw [if_pos (by rw [hmb_dbl])]
    unfold normal_roll_finish Player.send_to_jail
    dsimp only
    have hlen2 : s.current_pindex < ((s.players.set s.current_pindex
        ((s.players.getD s.current_pindex Player.new).move_by roll.sum)).length) := by
      simpa using hi
    rw [getD_set_self hlen2]
    dsimp only
    rw [show MoveType.when_landed_on JAIL_POSITION = MoveType.Roll from rfl]
    simp only [MoveType.is_roll, Bool.true_and, beq_self_eq_true, if_true]
    refine ⟨(s.players.set s.current_pindex
        ((s.players.getD s.current_pindex Player.new).move_by roll.sum)).set
          s.current_pindex
          { in_jail := true, position := JAIL_POSITION,
            balance := ((s.players.getD s.current_pindex Player.new).move_by roll.sum).balance,
            doubles_rolled := 0 }, ?_, ?_, ?_, ?_, ?_⟩
    · unfold lvl1_adjust jail_adjust
      split_ifs <;>
        simp [StateDiff.set_players, StateDiff.set_current_pindex, StateDiff.set_level_1_rent,
          StateDiff.set_jail_rounds, StateDiff.set_diff, StateDiff.diff_exists,
          StateDiff.get_supposed_diff_index, StateDiff.get_diff_index, StateDiff.read_players,
          StateDiff.read_diff, StateDiff.new_with_parent, List.insertIdx, DiffID.disc]
    · rw [getD_set_self (by simpa using hi)]
    · rw [getD_set_self (by simpa using hi)]
    · rw [getD_set_self (by simpa using hi)]
    · unfold lvl1_adjust jail_adjust
      split_ifs <;>
        simp [StateDiff.set_players, StateDiff.set_current_pindex, StateDiff.set_level_1_rent,
          StateDiff.set_jail_rounds, StateDiff.set_diff, StateDiff.diff_exists,
          StateDiff.get_supposed_diff_index, StateDiff.get_diff_index, StateDiff.read_jail_rounds,
          StateDiff.read_diff, StateDiff.new_with_parent, List.insertIdx, DiffID.disc]



/-- Witness for C3 amended: the (1,1) roll at `exTripleDouble`. -/
theorem C3_amended_witness :
    jail_adjust exTripleDouble (lvl1_adjust exTripleDouble
      (normal_roll_child exTripleDouble 0 ⟨1/36, 2, true⟩)) ∈ gen_children exTripleDouble 0 ∧
    ∃ ps, (jail_adjust exTripleDouble (lvl1_adjust exTripleDouble
        (normal_roll_child exTripleDouble 0 ⟨1/36, 2, true⟩))).read_players = some ps ∧
      (ps.getD exTripleDouble.current_pindex Player.new).position = JAIL_POSITION ∧
      (ps.getD exTripleDouble.current_pindex Player.new).in_jail = true ∧
      (ps.getD exTripleDouble.current_pindex Player.new).doubles_rolled = 0 ∧
      (jail_adjust exTripleDouble (lvl1_adjust exTripleDouble
        (normal_roll_child exTripleDouble 0 ⟨1/36, 2, true⟩))).read_jail_rounds
        = some (exTripleDouble.jail_rounds.map (fun x => if x > 0 then x - 1 else 0)) :=
  C3_amended_triple_double_no_jail_tries exTripleDouble 0 ⟨1/36, 2, true⟩
    rfl (by decide) (by decide) (by decide)
    (by rw [significant_rolls_eq]; exact List.mem_cons_self _ _)
    rfl (by decide)




theorem mapM_some_length {α β : Type} (f : α → Option β) :
    ∀ (l : List α) (r : List β), l.mapM f = some r → r.length = l.length := by
  intro l
  induction l with
  | nil =>
    intro r h
    simp only [List.mapM_nil, pure, Option.some.injEq] at h
    rw [← h]
    rfl
  | cons a t ih =>
    intro r h
    rw [List.mapM_cons] at h
    simp only [Option.bind_eq_bind, Option.bind_eq_some, pure, Option.some.injEq] at h
    obtain ⟨b, _, bs, hbs, hr⟩ := h
    rw [← hr, List.length_cons, List.length_cons, ih bs hbs]

theorem chance_scan_lt (l : List ℚ) (pos : ℚ) (j : Nat) (h : chance_scan l pos = some j) :
    j < l.length := by
  induction l generalizing pos j with
  | nil => simp [chance_scan] at h
  | cons c t ih =>
    unfold chance_scan at h
    split_ifs at h
    · rw [Option.some.injEq] at h
      rw [← h, List.length_cons]
      omega
    · rw [Option.map_eq_some'] at h
      obtain ⟨j0, hj0, hj⟩ := h
      rw [← hj, List.length_cons]
      exact Nat.succ_lt_succ (ih (pos - c) j0 hj0)

/-- C9: for a node with at least one child, all of them chance branches, the
weighted sampler `get_any_chance_child` returns an index strictly below the
number of children for every draw in `[0, 1)` — draws exceeding the
cumulative mass fall back to the last child, so the out-of-range error branch
is unreachable. -/
theorem C9_chance_child_index_in_range (g : Game) (handle : Nat) (s : StateDiff)
    (cs : List ℚ) (pos : ℚ)
    (hs : g.nodes[handle]? = some s)
    (hcs : get_children_chances g handle = some cs)
    (hne : s.children ≠ [])
    (h0 : 0 ≤ pos) (h1 : pos < 1) :
    ∃ i, get_any_chance_child g handle pos = some i ∧ i < s.children.length := by
  have hlen : cs.length = s.children.length := by
    unfold get_children_chances at hcs
    rw [hs] at hcs
    exact mapM_some_length _ _ _ hcs
  have hpos0 : 0 < cs.length := by
    rw [hlen]
    exact List.length_pos.mpr hne
  refine ⟨(chance_scan cs pos).getD (cs.length - 1), ?_, ?_⟩
  · unfold get_any_chance_child
    rw [hcs]
    rfl
  · rw [← hlen]
    match hsc : chance_scan cs pos with
    | some j =>
      exact chance_scan_lt cs pos j hsc
    | none =>
      dsimp only [Option.getD_none]
      omega

/-- Witness for C9: the two-chance-child arena `exChanceGame` with the draw
1/2. -/
theorem C9_witness :
    ∃ i, get_any_chance_child exChanceGame 0 (1 / 2) = some i ∧
      i < exChanceRoot.children.length :=
  C9_chance_child_index_in_range exChanceGame 0 exChanceRoot [1 / 2, 1 / 2] (1 / 2)
    rfl rfl (by decide) (by norm_num) (by norm_num)


theorem beq_and_one_eq_testBit (x k : Nat) : ((x >>> k) &&& 1 == 1) = x.testBit k := by
  unfold Nat.testBit
  rw [Nat.and_one_is_mod, Nat.one_and_eq_mod_two]
  rcases Nat.mod_two_eq_zero_or_one (x >>> k) with h | h <;> rw [h] <;> rfl

theorem diff_exists_eq_testBit (s : StateDiff) (d : DiffID) :
    s.diff_exists d = s.present_diffs.testBit d.disc := by
  unfold StateDiff.diff_exists
  exact beq_and_one_eq_testBit s.present_diffs d.disc

theorem set_diff_exists_self (s : StateDiff) (d : DiffID) (v : FieldDiff) :
    (s.set_diff d v).diff_exists d = true := by
  unfold StateDiff.set_diff
  dsimp only
  split_ifs with h
  · exact h
  · rw [diff_exists_eq_testBit]
    dsimp only
    rw [Nat.testBit_or, Nat.one_shiftLeft, Nat.testBit_two_pow_self, Bool.or_true]

theorem set_diff_exists_mono (s : StateDiff) (d e : DiffID) (v : FieldDiff)
    (h : s.diff_exists e = true) :
    (s.set_diff d v).diff_exists e = true := by
  unfold StateDiff.set_diff
  dsimp only
  split_ifs with hex
  · exact h
  · rw [diff_exists_eq_testBit] at h ⊢
    dsimp only
    rw [Nat.testBit_or, h, Bool.true_or]

theorem set_diff_diffs_parent (s : StateDiff) (d : DiffID) (v : FieldDiff) :
    (s.set_diff d v).parent = s.parent := set_diff_parent s d v

/-- The materialisation fold of `advance_root_node` keeps the node present at
`nh`, preserves its parent and any diff it already has, and establishes every
diff in the processed list. -/
theorem materialize_fold (nh : Nat) :
    ∀ (L : List DiffID) (g g2 : Game), L.foldlM (materialize_step nh) g = some g2 →
    ∀ n, g.nodes[nh]? = some n →
    ∃ n2, g2.nodes[nh]? = some n2 ∧
      (∀ d, n.diff_exists d = true → n2.diff_exists d = true) ∧
      (∀ d ∈ L, n2.diff_exists d = true) ∧
      n2.parent = n.parent := by
  intro L
  induction L with
  | nil =>
    intro g g2 hfold n hn
    simp only [List.foldlM_nil, pure, Option.some.injEq] at hfold
    subst hfold
    exact ⟨n, hn, fun d hd => hd, by simp, rfl⟩
  | cons d0 t ih =>
    intro g g2 hfold n hn
    rw [List.foldlM_cons] at hfold
    simp only [Option.bind_eq_bind, Option.bind_eq_some] at hfold
    obtain ⟨g1, hstep, hrest⟩ := hfold
    -- analyse one step
    unfold materialize_step at hstep
    rw [hn] at hstep
    dsimp only at hstep
    by_cases hex : n.diff_exists d0 = true
    · rw [if_pos hex] at hstep
      rw [Option.some.injEq] at hstep
      subst hstep
      obtain ⟨n2, hn2, hmono, hall, hpar⟩ := ih _ g2 hrest n hn
      refine ⟨n2, hn2, hmono, ?_, hpar⟩
      intro d hd
      rcases List.mem_cons.mp hd with hd | hd
      · subst hd
        exact hmono d hex
      · exact hall d hd
    · rw [if_neg hex] at hstep
      match hv : g.diff_field_fuel (g.nodes.length + 1) nh d0 with
      | none => rw [hv] at hstep; exact absurd hstep (by simp)
      | some v =>
        rw [hv] at hstep
        rw [Option.some.injEq] at hstep
        have hlt : nh < g.nodes.length := by
          by_contra hge
          rw [List.getElem?_eq_none (by omega)] at hn
          exact Option.noConfusion hn
        have hn1 : g1.nodes[nh]? = some (n.set_diff d0 v) := by
          rw [← hstep]
          dsimp only
          exact List.getElem?_set_self (by simpa using hlt)
        obtain ⟨n2, hn2, hmono, hall, hpar⟩ := ih g1 g2 hrest (n.set_diff d0 v) hn1

        refine ⟨n2, hn2, ?_, ?_, ?_⟩
        · intro d hd
          exact hmono d (set_diff_exists_mono n d0 d v hd)
        · intro d hd
          rcases List.mem_cons.mp hd with hd | hd
          · subst hd
            exact hmono d (set_diff_exists_self n d v)
          · exact hall d hd
        · rw [hpar, set_diff_diffs_parent]




/-- C8: whenever `advance_root_node` commits a chosen child as the new root,
the new root node carries all seven tracked diff fields directly (the
materialisation loop installs every missing one) and its parent pointer is
the self-loop `new_root.parent = new_root_handle`. -/
theorem C8_advance_root_self_contained (g : Game) (child_index : Nat) (gf : Game)
    (h : advance_root_node g child_index = some gf) :
    ∃ n, gf.nodes[gf.root_handle]? = some n ∧
      (∀ d : DiffID, n.diff_exists d = true) ∧
      n.parent = gf.root_handle := by
  unfold advance_root_node at h
  simp only [Option.bind_eq_bind, Option.bind_eq_some] at h
  obtain ⟨root, hroot, new_handle, hch, dirty2, hdirty, n0, hn0, g4, hfold, n1, hn1, hgf⟩ := h
  rw [Option.some.injEq] at hgf
  subst hgf
  by_cases hc : n0.diff_exists DiffID.CurrentPlayer = true
  · rw [if_pos hc] at hfold
    obtain ⟨n2, hn2, hmono2, hall, hpar2⟩ :=
      materialize_fold new_handle DiffID.all _ g4 hfold n0 hn0
    have hn12 : n1 = n2 := Option.some_inj.mp (hn1.symm.trans hn2)
    have hlt : new_handle < g4.nodes.length := by
      by_contra hge
      rw [List.getElem?_eq_none (by omega)] at hn2
      exact Option.noConfusion hn2
    refine ⟨{ n1 with parent := new_handle }, ?_, ?_, rfl⟩
    · dsimp only
      exact List.getElem?_set_self (by simpa using hlt)
    · intro d
      show n1.diff_exists d = true
      rw [hn12]
      exact hall d (by cases d <;> decide)
  · rw [if_neg hc] at hfold
    obtain ⟨n2, hn2, hmono2, hall, hpar2⟩ :=
      materialize_fold new_handle DiffID.all _ g4 hfold n0 hn0
    have hn12 : n1 = n2 := Option.some_inj.mp (hn1.symm.trans hn2)
    have hlt : new_handle < g4.nodes.length := by
      by_contra hge
      rw [List.getElem?_eq_none (by omega)] at hn2
      exact Option.noConfusion hn2
    refine ⟨{ n1 with parent := new_handle }, ?_, ?_, rfl⟩
    · dsimp only
      exact List.getElem?_set_self (by simpa using hlt)
    · intro d
      show n1.diff_exists d = true
      rw [hn12]
      exact hall d (by cases d <;> decide)



/-- Witness for C8: committing the only child of the two-node arena `exGame`. -/
theorem C8_witness :
    ∃ n, exGame2.nodes[exGame2.root_handle]? = some n ∧
      (∀ d : DiffID, n.diff_exists d = true) ∧
      n.parent = exGame2.root_handle :=
  C8_advance_root_self_contained exGame 0 exGame2 (by decide)


end MonopolyAI

namespace MonopolyAI

set_option maxRecDepth 16384 in
theorem bitA1 : ∀ p : Fin 256, ∀ d : DiffID, (p : Nat).testBit d.disc = true →
    popcnt7 ((p : Nat) >>> d.disc) < popcnt7 (p : Nat) := by decide

set_option maxRecDepth 16384 in
theorem bitA2 : ∀ p : Fin 256, ∀ d e : DiffID, (p : Nat).testBit d.disc = true →
    (p : Nat).testBit e.disc = true → d ≠ e →
    popcnt7 ((p : Nat) >>> d.disc) ≠ popcnt7 ((p : Nat) >>> e.disc) := by decide

set_option maxRecDepth 16384 in
theorem bitA3 : ∀ p : Fin 256, ∀ d : DiffID,
    popcnt7 ((p : Nat) >>> d.disc) ≤ popcnt7 (p : Nat) := by decide

set_option maxRecDepth 16384 in
theorem bitA5 : ∀ p : Fin 256, ∀ d : DiffID, (p : Nat).testBit d.disc = false →
    popcnt7 (((p : Nat) ||| (1 <<< d.disc)) >>> d.disc) = popcnt7 ((p : Nat) >>> d.disc) := by
  decide

set_option maxRecDepth 16384 in
theorem bitA6 : ∀ p : Fin 256, ∀ d e : DiffID, (p : Nat).testBit d.disc = false →
    (p : Nat).testBit e.disc = true → d.disc < e.disc →
    popcnt7 (((p : Nat) ||| (1 <<< d.disc)) >>> e.disc) = popcnt7 ((p : Nat) >>> e.disc) ∧
    popcnt7 ((p : Nat) >>> e.disc) < popcnt7 ((p : Nat) >>> d.disc) := by decide

set_option maxRecDepth 16384 in
theorem bitA7 : ∀ p : Fin 256, ∀ d e : DiffID, (p : Nat).testBit d.disc = false →
    (p : Nat).testBit e.disc = true → e.disc < d.disc →
    popcnt7 (((p : Nat) ||| (1 <<< d.disc)) >>> e.disc)
      = popcnt7 ((p : Nat) >>> e.disc) + 1 ∧
    popcnt7 ((p : Nat) >>> d.disc) ≤ popcnt7 ((p : Nat) >>> e.disc) := by decide

theorem bitA8 : ∀ d e : DiffID, d.disc = e.disc → d = e := by decide

set_option maxRecDepth 16384 in
theorem bitA10 : ∀ p : Fin 256, ∀ d : DiffID, (p : Nat).testBit d.disc = false →
    popcnt7 ((p : Nat) ||| (1 <<< d.disc)) = popcnt7 (p : Nat) + 1 := by decide

set_option maxRecDepth 16384 in
theorem bitA11 : ∀ p : Fin 256, ∀ d : DiffID, ((p : Nat) ||| (1 <<< d.disc)) < 256 := by
  decide

theorem bitA9 : ∀ d e : DiffID, d ≠ e → d.disc < e.disc ∨ e.disc < d.disc := by decide

end MonopolyAI

namespace MonopolyAI

theorem getElem?_insertIdx_lt {α : Type} (l : List α) (a : α) (n k : Nat)
    (hn : n ≤ l.length) (hk : k < n) :
    (l.insertIdx n a)[k]? = l[k]? := by
  have hkl : k < l.length := by omega
  rw [List.getElem?_eq_getElem hkl,
    List.getElem?_eq_getElem (by rw [List.length_insertIdx n l hn]; omega),
    List.getElem_insertIdx_of_lt l a n k hk hkl]

theorem getElem?_insertIdx_self {α : Type} (l : List α) (a : α) (n : Nat)
    (hn : n ≤ l.length) :
    (l.insertIdx n a)[n]? = some a := by
  rw [List.getElem?_eq_getElem (by rw [List.length_insertIdx n l hn]; omega),
    List.getElem_insertIdx_self l a n hn]

theorem getElem?_insertIdx_ge {α : Type} (l : List α) (a : α) (n k : Nat)
    (hn : n ≤ l.length) (hk : n ≤ k) :
    (l.insertIdx n a)[k + 1]? = l[k]? := by
  by_cases hkl : k < l.length
  · obtain ⟨j, rfl⟩ : ∃ j, k = n + j := ⟨k - n, by omega⟩
    rw [List.getElem?_eq_getElem hkl,
      List.getElem?_eq_getElem (by rw [List.length_insertIdx n l hn]; omega)]
    exact congrArg some (List.getElem_insertIdx_add_succ l a n j (by omega))
  · have h1 : l[k]? = none := List.getElem?_eq_none (by omega)
    have h2 : (l.insertIdx n a)[k + 1]? = none :=
      List.getElem?_eq_none (by rw [List.length_insertIdx n l hn]; omega)
    rw [h1, h2]

end MonopolyAI

namespace MonopolyAI

theorem gsdi_eq_popcnt7 (s : StateDiff) (d : DiffID) :
    s.get_supposed_diff_index d = popcnt7 (s.present_diffs >>> d.disc) := rfl

/-- C10: the diff-vector representation is correct. The root node satisfies
the representation invariant (`Wf`: the mask fits a byte and the vector holds
one entry per present field, ordered by decreasing discriminant so that
`get_supposed_diff_index` computes a field's position as the count of present
higher-discriminant fields); `set_diff` preserves it, makes the written field
present and readable back at its computed index, and leaves every other
present field readable at its (possibly shifted) index with its old value. -/
theorem C10_set_diff_correct :
    (∀ player_count : Nat, (StateDiff.new_root player_count).Wf) ∧
    (∀ (s : StateDiff) (id : DiffID) (v : FieldDiff), s.Wf →
      (s.set_diff id v).Wf ∧
      (s.set_diff id v).diff_exists id = true ∧
      (s.set_diff id v).diffs[(s.set_diff id v).get_supposed_diff_index id]? = some v ∧
      (∀ id2 : DiffID, id2 ≠ id → s.diff_exists id2 = true →
        (s.set_diff id v).diff_exists id2 = true ∧
        (s.set_diff id v).diffs[(s.set_diff id v).get_supposed_diff_index id2]?
          = s.diffs[s.get_supposed_diff_index id2]?)) := by
  constructor
  · intro n
    refine ⟨?_, ?_⟩
    · show (254 : Nat) < 256
      decide
    · show (7 : Nat) = popcnt7 254
      decide
  · intro s id v hwf
    obtain ⟨hp, hl⟩ := hwf
    by_cases hex : s.diff_exists id = true
    · -- the field is already present: the vector entry is overwritten in place
      have htb : s.present_diffs.testBit id.disc = true := by
        rw [← diff_exists_eq_testBit]
        exact hex
      have hpres : (s.set_diff id v).present_diffs = s.present_diffs := by
        unfold StateDiff.set_diff
        rw [if_pos hex]
      have hdiffs : (s.set_diff id v).diffs
          = s.diffs.set (s.get_supposed_diff_index id) v := by
        unfold StateDiff.set_diff
        rw [if_pos hex]
      have hgs : ∀ e : DiffID, (s.set_diff id v).get_supposed_diff_index e
          = s.get_supposed_diff_index e := by
        intro e
        rw [gsdi_eq_popcnt7, gsdi_eq_popcnt7, hpres]
      have hde : ∀ e : DiffID, (s.set_diff id v).diff_exists e = s.diff_exists e := by
        intro e
        rw [diff_exists_eq_testBit, diff_exists_eq_testBit, hpres]
      have hidx : s.get_supposed_diff_index id < s.diffs.length := by
        rw [hl, gsdi_eq_popcnt7]
        exact bitA1 ⟨s.present_diffs, hp⟩ id htb
      refine ⟨⟨?_, ?_⟩, ?_, ?_, ?_⟩
      · rw [hpres]
        exact hp
      · rw [hpres, hdiffs, List.length_set]
        exact hl
      · rw [hde]
        exact hex
      · rw [hdiffs, hgs]
        exact List.getElem?_set_self hidx
      · intro id2 hne hex2
        have htb2 : s.present_diffs.testBit id2.disc = true := by
          rw [← diff_exists_eq_testBit]
          exact hex2
        refine ⟨?_, ?_⟩
        · rw [hde]
          exact hex2
        · rw [hdiffs, hgs]
          refine List.getElem?_set_ne ?_
          rw [gsdi_eq_popcnt7, gsdi_eq_popcnt7]
          exact bitA2 ⟨s.present_diffs, hp⟩ id id2 htb htb2 (fun h => hne (h ▸ rfl))
    · -- the field is new: it is inserted at its index, shifting lower fields
      have hexf : s.diff_exists id = false := Bool.eq_false_iff.mpr hex
      have htb : s.present_diffs.testBit id.disc = false := by
        rw [← diff_exists_eq_testBit]
        exact hexf
      have hpres : (s.set_diff id v).present_diffs
          = s.present_diffs ||| (1 <<< id.disc) := by
        unfold StateDiff.set_diff
        rw [if_neg hex]
      have hdiffs : (s.set_diff id v).diffs
          = s.diffs.insertIdx (s.get_supposed_diff_index id) v := by
        unfold StateDiff.set_diff
        rw [if_neg hex]
      have hnle : s.get_supposed_diff_index id ≤ s.diffs.length := by
        rw [hl, gsdi_eq_popcnt7]
        exact bitA3 ⟨s.present_diffs, hp⟩ id
      refine ⟨⟨?_, ?_⟩, ?_, ?_, ?_⟩
      · rw [hpres]
        exact bitA11 ⟨s.present_diffs, hp⟩ id
      · have h10 : popcnt7 (s.present_diffs ||| (1 <<< id.disc))
            = popcnt7 s.present_diffs + 1 := bitA10 ⟨s.present_diffs, hp⟩ id htb
        rw [hpres, hdiffs, List.length_insertIdx _ _ hnle, hl, h10]
      · rw [diff_exists_eq_testBit, hpres, Nat.testBit_or, Nat.one_shiftLeft,
          Nat.testBit_two_pow_self, Bool.or_true]
      · have h5 : popcnt7 ((s.present_diffs ||| (1 <<< id.disc)) >>> id.disc)
            = popcnt7 (s.present_diffs >>> id.disc) := bitA5 ⟨s.present_diffs, hp⟩ id htb
        have hgs_self : (s.set_diff id v).get_supposed_diff_index id
            = s.get_supposed_diff_index id := by
          rw [gsdi_eq_popcnt7, hpres, h5, gsdi_eq_popcnt7]
        rw [hgs_self, hdiffs]
        exact getElem?_insertIdx_self s.diffs v _ hnle
      · intro id2 hne hex2
        have htb2 : s.present_diffs.testBit id2.disc = true := by
          rw [← diff_exists_eq_testBit]
          exact hex2
        refine ⟨?_, ?_⟩
        · rw [diff_exists_eq_testBit, hpres, Nat.testBit_or, htb2, Bool.true_or]
        · rcases bitA9 id id2 (fun h => hne h.symm) with hlt | hlt
          · -- id2 has the higher discriminant: its index is unchanged
            obtain ⟨heq, hless⟩ := bitA6 ⟨s.present_diffs, hp⟩ id id2 htb htb2 hlt
            have heq2 : popcnt7 ((s.present_diffs ||| (1 <<< id.disc)) >>> id2.disc)
                = popcnt7 (s.present_diffs >>> id2.disc) := heq
            have hless2 : s.get_supposed_diff_index id2 < s.get_supposed_diff_index id := by
              rw [gsdi_eq_popcnt7, gsdi_eq_popcnt7]
              exact hless
            have hgs2 : (s.set_diff id v).get_supposed_diff_index id2
                = s.get_supposed_diff_index id2 := by
              rw [gsdi_eq_popcnt7, hpres, heq2, gsdi_eq_popcnt7]
            rw [hgs2, hdiffs]
            exact getElem?_insertIdx_lt s.diffs v _ _ hnle hless2
          · -- id2 has the lower discriminant: its index shifts by one
            obtain ⟨heq, hge⟩ := bitA7 ⟨s.present_diffs, hp⟩ id id2 htb htb2 hlt
            have heq2 : popcnt7 ((s.present_diffs ||| (1 <<< id.disc)) >>> id2.disc)
                = popcnt7 (s.present_diffs >>> id2.disc) + 1 := heq
            have hge2 : s.get_supposed_diff_index id ≤ s.get_supposed_diff_index id2 := by
              rw [gsdi_eq_popcnt7, gsdi_eq_popcnt7]
              exact hge
            have hgs2 : (s.set_diff id v).get_supposed_diff_index id2
                = s.get_supposed_diff_index id2 + 1 := by
              rw [gsdi_eq_popcnt7, hpres, heq2, gsdi_eq_popcnt7]
            rw [hgs2, hdiffs]
            exact getElem?_insertIdx_ge s.diffs v _ _ hnle hge2

/-- Witness for C10: setting the players field on the two-player root. -/
theorem C10_witness :
    ((StateDiff.new_root 2).set_diff DiffID.Players (FieldDiff.Players [])).diff_exists
      DiffID.Players = true :=
  (C10_set_diff_correct.2 (StateDiff.new_root 2) DiffID.Players (FieldDiff.Players [])
    ⟨by decide, by decide⟩).2.1

end MonopolyAI
